import Mathlib

/-!
# Verification of the pty byte relay, the a12 helper interface and the encoder

Shallow embedding of `pty_write`, `pty_read`, `shl_pty_dispatch` and
`shl_pty_write` from `src/frameserver/terminal/default/tsm/shl-pty.c`
(namespace `ShlPty`), of the interface declared in `src/a12/net/a12_helper.h`
(namespace `A12Helper`), of `setup_ffmpeg_encode`, `afsrv_encode` and
`flush_audbuf` from `src/frameserver/encode/default/encode.c` (namespace
`Encode`) and of `arcan_tui_setup` from `src/shmif/tui/core/setup.c`
(namespace `TuiSetup`). All definitions come first, the theorems follow.

* The file descriptor is an environment: every `writev`/`read` system call
  is answered by a behaviour function of the call index (and, for writes, of
  the bytes offered), so that every scheduling of accepted counts,
  would-block and interrupts is covered.
* Return values are C `int`s, modelled as `Int`; `errno` values are `Int`.
* The outbound ring (`shl-ring.h`) is not among the sources and is modelled
  from the specification as a bounded FIFO byte queue.
-/

namespace ShlPty

/-- One octet of the byte stream. -/
abbrev Byte := Nat

/-! ## Constants -/

/-- Value of `EINTR` in errno.h (Linux). -/
def EINTR : Int := 4
/-- Value of `EBADF` in errno.h (Linux), an errno that `pty_write` does not
expect. -/
def EBADF : Int := 9
/-- Value of `EAGAIN` in errno.h (Linux). -/
def EAGAIN : Int := 11
/-- Value of `ENOMEM` in errno.h (Linux). -/
def ENOMEM : Int := 12
/-- Value of `ENODEV` in errno.h (Linux). -/
def ENODEV : Int := 19
/-- Value of `EPIPE` in errno.h (Linux). -/
def EPIPE : Int := 32

/-- The constant of shl-pty.c line 53: `#define SHL_PTY_BUFSIZE 16384`. -/
def SHL_PTY_BUFSIZE : Nat := 16384

/-! ## Outbound ring -/

/-- Modelled from the spec: `struct shl_ring` (shl-ring.h is missing from the
sources). "An ordered, bounded byte queue holding data produced but not yet
written to the transport": `data` is the pending content, head first, and
`capacity` the bound. -/
structure shl_ring where
  data : List Byte
  capacity : Nat
deriving DecidableEq, Repr

/-- Modelled from the spec: `shl_ring_get_size` (shl-ring.h is missing), the
number of pending bytes. -/
def shl_ring_get_size (r : shl_ring) : Nat := r.data.length

/-- Modelled from the spec: `shl_ring_peek` (shl-ring.h is missing). It fills
the caller's `iovec` array with the pending content in FIFO order and
returns the number of vectors used, which is zero exactly when the ring is
empty. The result is the filled part of the array; its length is the
returned count. -/
def shl_ring_peek (r : shl_ring) : List (List Byte) :=
  if r.data = [] then [] else [r.data]

/-- Modelled from the spec: `shl_ring_pull` (shl-ring.h is missing), "bytes
are consumed only at the head": removes `size` bytes from the head. -/
def shl_ring_pull (r : shl_ring) (size : Nat) : shl_ring :=
  { r with data := r.data.drop size }

/-- Modelled from the spec: `shl_ring_push` (shl-ring.h is missing), "appends
to the outbound ring buffer; fails with Overflow if capacity would be
exceeded": all of `u8` is appended at the tail and 0 is returned, or the
ring is left alone and a negative code is returned. -/
def shl_ring_push (r : shl_ring) (u8 : List Byte) : Int × shl_ring :=
  if r.data.length + u8.length ≤ r.capacity then
    (0, { r with data := r.data ++ u8 })
  else
    (-ENOMEM, r)

/-! ## The pty object and its descriptor -/

/-- The `struct shl_pty` of shl-pty.c lines 83-92. `fn_input` records whether
an input callback is installed (a non-NULL function pointer); the
callback's invocations are recorded in the input trace. -/
structure shl_pty where
  ref : Nat
  fd : Int
  child : Int
  in_buf : List Byte
  out_buf : shl_ring
  fn_input : Bool
deriving DecidableEq, Repr

/-- Result of a system call: a non-negative count, or -1 with `errno` set. -/
inductive SysResult where
  | ok (n : Nat)
  | err (errno : Int)
deriving DecidableEq, Repr

/-- Behaviour of the descriptor on writes: the answer to the write call
number `i` (counted from 0) offering the bytes `offered`. -/
abbrev WriteBehaviour := Nat → List Byte → SysResult

/-- What the transport has seen: the number of write calls issued and the
bytes it has accepted, in order. -/
structure Transport where
  calls : Nat
  observed : List Byte
deriving DecidableEq, Repr

/-- The system call `writev(fd, vec, num)`: the first `num` vectors are
gathered in order and offered to the descriptor, which accepts a leading
part of them (never more than offered) or fails. -/
def writev (beh : WriteBehaviour) (t : Transport) (vec : List (List Byte))
    (num : Nat) : SysResult × Transport :=
  let offered := (vec.take num).flatten
  match beh t.calls offered with
  | .ok n =>
    (.ok (min n offered.length),
     { calls := t.calls + 1, observed := t.observed ++ offered.take n })
  | .err e => (.err e, { t with calls := t.calls + 1 })

/-- The loop of `pty_write` (shl-pty.c lines 360-380) with `k` passes left:
`for (i = 0; i < 2; ++i) { ... }` followed by the final `return`. -/
def pty_write_loop (beh : WriteBehaviour) :
    Nat → shl_pty → Transport → Int × shl_pty × Transport
  | 0, pty, t =>
    (if shl_ring_get_size pty.out_buf > 0 then -EAGAIN else 0, pty, t)
  | k + 1, pty, t =>
    let vec := shl_ring_peek pty.out_buf
    let num := vec.length
    if num = 0 then
      (0, pty, t)
    else
      match writev beh t vec num with
      | (.err errno, t1) =>
        if errno = EAGAIN then (0, pty, t1)
        else if errno = EINTR then (-EAGAIN, pty, t1)
        else (-errno, pty, t1)
      | (.ok 0, t1) => (-EPIPE, pty, t1)
      | (.ok (r + 1), t1) =>
        pty_write_loop beh k
          { pty with out_buf := shl_ring_pull pty.out_buf (r + 1) } t1

/-- The function `pty_write` (shl-pty.c lines 346-381): two passes. -/
def pty_write (beh : WriteBehaviour) (pty : shl_pty) (t : Transport) :
    Int × shl_pty × Transport :=
  pty_write_loop beh 2 pty t

/-- The function `shl_pty_is_open` (shl-pty.c lines 325-328); `none` is the
NULL pointer. -/
def shl_pty_is_open (pty : Option shl_pty) : Bool :=
  match pty with
  | none => false
  | some p => decide (p.fd ≥ 0)

/-- The function `shl_pty_dispatch` (shl-pty.c lines 420-429). -/
def shl_pty_dispatch (beh : WriteBehaviour) (pty : Option shl_pty)
    (t : Transport) : Int × Option shl_pty × Transport :=
  match pty with
  | none => (-ENODEV, none, t)
  | some p =>
    if !shl_pty_is_open (some p) then
      (-ENODEV, some p, t)
    else
      let w := pty_write beh p t
      (0, some w.2.1, w.2.2)

/-- The function `shl_pty_write` (shl-pty.c lines 431-439); `u8` carries the
`len` bytes to enqueue. -/
def shl_pty_write (beh : WriteBehaviour) (pty : Option shl_pty)
    (u8 : List Byte) (t : Transport) : Int × Option shl_pty × Transport :=
  match pty with
  | none => (-ENODEV, none, t)
  | some p =>
    if !shl_pty_is_open (some p) then
      (-ENODEV, some p, t)
    else
      let pushed := shl_ring_push p.out_buf u8
      let w := pty_write beh { p with out_buf := pushed.2 } t
      (pushed.1, some w.2.1, w.2.2)

/-! ## Sequences of operations on one pty -/

/-- One call made by the owner of the pty: `shl_pty_write(pty, u8, len)`, a
direct `pty_write(pty)`, or `shl_pty_dispatch(pty)`. -/
inductive Op where
  | enqueue (u8 : List Byte)
  | pump
  | dispatch
deriving DecidableEq, Repr

/-- Executes one call; yields its return value and the state afterwards. The
static `pty_write` dereferences its argument, so a direct call is only made
with a non-NULL pty; on NULL the state is left alone. -/
def step (beh : WriteBehaviour) (s : Option shl_pty × Transport) :
    Op → Int × (Option shl_pty × Transport)
  | .enqueue u8 => let w := shl_pty_write beh s.1 u8 s.2; (w.1, (w.2.1, w.2.2))
  | .pump =>
    match s.1 with
    | none => (0, s)
    | some p => let w := pty_write beh p s.2; (w.1, (some w.2.1, w.2.2))
  | .dispatch => let w := shl_pty_dispatch beh s.1 s.2; (w.1, (w.2.1, w.2.2))

/-- Executes a sequence of calls, first to last. -/
def run (beh : WriteBehaviour) :
    List Op → Option shl_pty × Transport → Option shl_pty × Transport
  | [], s => s
  | op :: ops, s => run beh ops (step beh s op).2

/-- Every `shl_pty_write` of the sequence returned 0: its ring push
succeeded. -/
def pushes_succeed (beh : WriteBehaviour) :
    List Op → Option shl_pty × Transport → Bool
  | [], _ => true
  | .enqueue u8 :: ops, s =>
    decide ((step beh s (.enqueue u8)).1 = 0) &&
      pushes_succeed beh ops (step beh s (.enqueue u8)).2
  | op :: ops, s => pushes_succeed beh ops (step beh s op).2

/-- The byte strings handed to `shl_pty_write`, concatenated in call order. -/
def enqueued : List Op → List Byte
  | [] => []
  | .enqueue u8 :: ops => u8 ++ enqueued ops
  | _ :: ops => enqueued ops

/-- Pending content of the outbound ring of a (possibly NULL) pty. -/
def pending : Option shl_pty → List Byte
  | none => []
  | some p => p.out_buf.data

/-- Repeats `pty_write` `n` times on the same pty and descriptor; yields the
return values in call order and the final state. -/
def pty_write_n (beh : WriteBehaviour) :
    Nat → shl_pty → Transport → List Int × shl_pty × Transport
  | 0, pty, t => ([], pty, t)
  | n + 1, pty, t =>
    let w := pty_write beh pty t
    let r := pty_write_n beh n w.2.1 w.2.2
    (w.1 :: r.1, r.2)

/-- The transport of Scenario A: every write call accepts
`min(4096, offered)` bytes. -/
def accept4096 : WriteBehaviour := fun _ offered => .ok (min 4096 offered.length)

/-! ## Input side -/

/-- Answer of the descriptor to a `read`: the bytes available (none at end
of file), or -1 with `errno` set. -/
inductive ReadResult where
  | data (bytes : List Byte)
  | err (errno : Int)
deriving DecidableEq, Repr

/-- Behaviour of the descriptor on reads: the answer to read call number
`i` (counted from 0). -/
abbrev ReadBehaviour := Nat → ReadResult

/-- What happens on the input side, in order: a `read` system call asking
for `count` bytes, or an invocation of the input callback with a chunk. -/
inductive InEvent where
  | read_call (count : Nat)
  | fn_input (chunk : List Byte)
deriving DecidableEq, Repr

/-- The input side of the descriptor: the number of read calls issued and
the trace of events. -/
structure Source where
  calls : Nat
  trace : List InEvent
deriving DecidableEq, Repr

/-- The system call `read(fd, buf, count)`: at most `count` of the available
bytes are stored at the start of `buf`; yields the return value and the
buffer afterwards. -/
def read (beh : ReadBehaviour) (s : Source) (buf : List Byte) (count : Nat) :
    SysResult × List Byte × Source :=
  let s1 : Source := { calls := s.calls + 1, trace := s.trace ++ [.read_call count] }
  match beh s.calls with
  | .data bytes =>
    let got := bytes.take count
    (.ok got.length, got ++ buf.drop got.length, s1)
  | .err e => (.err e, buf, s1)

/-- Conversion of a `size_t` to the `int` return value (two's complement,
32 bits). -/
def int_of_size_t (n : Nat) : Int :=
  if n % 2 ^ 32 < 2 ^ 31 then ((n % 2 ^ 32 : Nat) : Int)
  else ((n % 2 ^ 32 : Nat) : Int) - 2 ^ 32

/-- The loop of `pty_read` (shl-pty.c lines 397-417) with `k` passes left
and `nr` bytes delivered so far. -/
def pty_read_loop (beh : ReadBehaviour) :
    Nat → Nat → shl_pty → Source → Int × shl_pty × Source
  | 0, nr, pty, s => (int_of_size_t nr, pty, s)
  | k + 1, nr, pty, s =>
    match read beh s pty.in_buf (SHL_PTY_BUFSIZE - 1) with
    | (.err errno, _, s1) =>
      if errno = EAGAIN then (0, pty, s1)
      else if errno = EINTR then (0, pty, s1)
      else (-errno, pty, s1)
    | (.ok 0, buf, s1) => (-EPIPE, { pty with in_buf := buf }, s1)
    | (.ok (l + 1), buf, s1) =>
      if pty.fn_input then
        let buf1 := buf.set (l + 1) 0
        pty_read_loop beh k ((nr + (l + 1)) % 2 ^ 64)
          { pty with in_buf := buf1 }
          { s1 with trace := s1.trace ++ [.fn_input (buf1.take (l + 1))] }
      else
        pty_read_loop beh k nr { pty with in_buf := buf } s1

/-- The function `pty_read` (shl-pty.c lines 383-418): `nr = 0`, two
passes. -/
def pty_read (beh : ReadBehaviour) (pty : shl_pty) (s : Source) :
    Int × shl_pty × Source :=
  pty_read_loop beh 2 0 pty s

/-- The chunks handed to the input callback in a trace, in order. -/
def chunks : List InEvent → List (List Byte)
  | [] => []
  | .fn_input c :: es => c :: chunks es
  | .read_call _ :: es => chunks es

/-! ## Concrete instances -/

/-- An open pty (descriptor 3) with an input callback whose ring, of
capacity 64, holds `bytes`; only the first cells of the input buffer are
listed. -/
def demo_pty (bytes : List Byte) : shl_pty :=
  { ref := 1, fd := 3, child := 100, in_buf := [0, 0, 0, 0, 0, 0, 0, 0],
    out_buf := { data := bytes, capacity := 64 }, fn_input := true }

/-- A descriptor on which nothing has been written yet. -/
def fresh : Transport := { calls := 0, observed := [] }

/-- A write behaviour given by a list of answers, one per call; further
calls would block. -/
def scripted (answers : List SysResult) : WriteBehaviour :=
  fun i _ => answers.getD i (.err EAGAIN)

/-- A read behaviour given by a list of answers, one per call; further
calls would block. -/
def scripted_read (answers : List ReadResult) : ReadBehaviour :=
  fun i => answers.getD i (.err EAGAIN)

/-- An input side on which nothing has been read yet. -/
def idle : Source := { calls := 0, trace := [] }

end ShlPty

/-! # The a12 helper interface (a12_helper.h) -/

namespace A12Helper

/-- The enumerator `A12HELPER_POLL_SHMIF = 1` of `enum a12helper_pollstate`
(a12_helper.h lines 13-17). -/
def A12HELPER_POLL_SHMIF : Nat := 1
/-- The enumerator `A12HELPER_WRITE_OUT = 2`. -/
def A12HELPER_WRITE_OUT : Nat := 2
/-- The enumerator `A12HELPER_DATA_IN = 4`. -/
def A12HELPER_DATA_IN : Nat := 4

/-- The poll-state bitmap of a set of surfaces: the bitwise OR of the flags
of the surfaces in the set. -/
def pollstate (shmif write_out data_in : Bool) : Nat :=
  (if shmif then A12HELPER_POLL_SHMIF else 0) |||
    (if write_out then A12HELPER_WRITE_OUT else 0) |||
    (if data_in then A12HELPER_DATA_IN else 0)

/-- Value of `EINVAL` in errno.h (Linux). -/
def EINVAL : Int := 22
/-- Value of `ENOENT` in errno.h (Linux). -/
def ENOENT : Int := 2

/-- Modelled from the spec: the outcomes of `a12helper_a12srv_shmifcl`, whose
body is missing (a12_helper.h only declares it). The listener entry point
yields a "poll-state bitmap | error{InvalidConnectionPoint,
SegmentUnavailable}". -/
inductive shmifcl_outcome where
  | polling (shmif write_out data_in : Bool)
  | invalid_connection_point
  | no_shmif_connection
deriving DecidableEq, Repr

/-- Modelled from the spec: the `int` returned by `a12helper_a12srv_shmifcl`
(body missing) for each outcome, as documented at its declaration
(a12_helper.h lines 62-67): the `a12helper_pollstate` bitmap, `-EINVAL` for
an invalid connection point, `-ENOENT` when the shmif connection could not
be made. -/
def a12helper_a12srv_shmifcl_result : shmifcl_outcome → Int
  | .polling s w d => (pollstate s w d : Int)
  | .invalid_connection_point => -EINVAL
  | .no_shmif_connection => -ENOENT

/-! ## Congestion controller -/

/-- Modelled from the spec: the congestion controller around
`a12helper_opts.vframe_block`, whose code is missing (a12_helper.h only
declares the option). The frame watermark "(last acknowledged frame
sequence, last submitted frame sequence)" with the tolerance; `ready` is the
sequence number of the newest frame the segment has made ready (frames are
numbered 1, 2, ...), and `sent` lists the frames handed on, oldest first. -/
structure Watermark where
  vframe_block : Nat
  acknowledged : Nat
  submitted : Nat
  ready : Nat
  sent : List Nat
deriving DecidableEq, Repr

/-- Modelled from the spec: the distance `submitted - acknowledged` (the
controller code is missing). -/
def distance (w : Watermark) : Int := (w.submitted : Int) - (w.acknowledged : Int)

/-- Modelled from the spec: the policy test (the controller code is
missing): "if at or above tolerance, the new frame is withheld". -/
def withheld (w : Watermark) : Bool := decide (distance w ≥ (w.vframe_block : Int))

/-- Modelled from the spec: the oldest waiting frame can be submitted now
(the controller code is missing): a frame waits and the policy does not
withhold it. -/
def submittable (w : Watermark) : Bool := decide (w.submitted < w.ready) && !withheld w

/-- Modelled from the spec: one "opportunity to submit a new video frame"
(the controller code is missing): the oldest waiting frame,
`submitted + 1`, is handed on unless the policy withholds it; a withheld
frame is kept, not dropped. -/
def try_submit (w : Watermark) : Watermark :=
  if submittable w then
    { w with submitted := w.submitted + 1, sent := w.sent ++ [w.submitted + 1] }
  else w

/-- Modelled from the spec: "on receipt of a protocol-level acknowledgment
for frame N, sets acknowledged = max(acknowledged, N)" (the controller code
is missing). -/
def on_ack (w : Watermark) (n : Nat) : Watermark :=
  { w with acknowledged := max w.acknowledged n }

/-- What can happen to the controller: the segment makes its next frame
ready and a submit attempt follows, a further submit attempt is made, or an
acknowledgment for frame `n` arrives. -/
inductive CEvent where
  | frame
  | attempt
  | ack (n : Nat)
deriving DecidableEq, Repr

/-- Modelled from the spec: the reaction of the controller to one event (the
controller code is missing). -/
def cstep (w : Watermark) : CEvent → Watermark
  | .frame => try_submit { w with ready := w.ready + 1 }
  | .attempt => try_submit w
  | .ack n => on_ack w n

/-- Runs the controller over a sequence of events, first to last. -/
def crun (w : Watermark) : List CEvent → Watermark
  | [] => w
  | e :: es => crun (cstep w e) es

/-- The controller before any frame, with tolerance `tol`. -/
def cstart (tol : Nat) : Watermark :=
  { vframe_block := tol, acknowledged := 0, submitted := 0, ready := 0, sent := [] }

/-- The frames that are ready but withheld: `submitted + 1 .. ready`. -/
def waiting (w : Watermark) : List Nat :=
  List.range' (w.submitted + 1) (w.ready - w.submitted)

/-- What every reachable controller state satisfies: the distance is within
the tolerance, the frames handed on are 1 .. submitted in this order, and
no frame is handed on before it is ready. -/
def cinv (tol : Nat) (w : Watermark) : Prop :=
  w.vframe_block = tol ∧ distance w ≤ (tol : Int) ∧
    w.sent = List.range' 1 w.submitted ∧ w.submitted ≤ w.ready

end A12Helper

/-! # The encode frameserver (encode.c) -/

namespace Encode

/-- Value of `EXIT_SUCCESS` in stdlib.h. -/
def EXIT_SUCCESS : Int := 0
/-- Value of `EXIT_FAILURE` in stdlib.h. -/
def EXIT_FAILURE : Int := 1

/-! ## Integer conversions (LP64) -/

/-- Conversion to `size_t` / `unsigned long`: the value modulo 2^64. -/
def to_size_t (x : Int) : Nat := (x % 2 ^ 64).toNat

/-- Conversion to `unsigned`: the value modulo 2^32. -/
def to_unsigned (x : Nat) : Nat := x % 2 ^ 32

/-- Conversion to `int`: the value modulo 2^32, read in two's complement. -/
def to_int (x : Int) : Int :=
  if x % 2 ^ 32 < 2 ^ 31 then x % 2 ^ 32 else x % 2 ^ 32 - 2 ^ 32

/-- Conversion to `off_t` (`long`): the value modulo 2^64, read in two's
complement. -/
def to_off_t (x : Int) : Int :=
  if x % 2 ^ 64 < 2 ^ 63 then x % 2 ^ 64 else x % 2 ^ 64 - 2 ^ 64

/-- The expression `x << 2` on an `int` (two's complement). -/
def shl2 (x : Int) : Int := to_int (x * 4)

/-! ## C library helpers -/

/-- The C library's `isspace` in the "C" locale: space, `\t`, `\n`, `\v`, `\f`
and `\r`. -/
def isspace (c : Char) : Bool :=
  c.toNat = 32 || (decide (9 ≤ c.toNat) && decide (c.toNat ≤ 13))

/-- Value of the longest leading run of decimal digits, on top of `acc`. -/
def digits_value : List Char → Nat → Nat
  | [], acc => acc
  | c :: cs, acc =>
    if decide (48 ≤ c.toNat) && decide (c.toNat ≤ 57) then
      digits_value cs (acc * 10 + (c.toNat - 48))
    else acc

/-- The C library's `strtoul(val, NULL, 10)`: leading white space is skipped,
a sign is optional, the digits are read (0 when there are none), a value
above `ULONG_MAX` yields `ULONG_MAX`, and a minus sign negates the value as
an `unsigned long`. -/
def strtoul (val : String) : Nat :=
  let cs := val.toList.dropWhile isspace
  let neg := decide (cs.head?.map Char.toNat = some 45)
  let signed := decide (cs.head?.map Char.toNat = some 45) ||
    decide (cs.head?.map Char.toNat = some 43)
  let v := digits_value (if signed then cs.drop 1 else cs) 0
  if v > 2 ^ 64 - 1 then 2 ^ 64 - 1
  else if neg then to_size_t (-(v : Int))
  else v

/-- The C library's `strncmp(a, b, n)` on strings given without their
terminating zero. -/
def strncmp : List Char → List Char → Nat → Int
  | _, _, 0 => 0
  | [], [], _ + 1 => 0
  | [], b :: _, _ + 1 => -(b.toNat : Int)
  | a :: _, [], _ + 1 => (a.toNat : Int)
  | a :: as, b :: bs, n + 1 =>
    if a = b then strncmp as bs n else (a.toNat : Int) - (b.toNat : Int)

/-- The C library's `strcmp(a, b) == 0`. -/
def streq (a b : String) : Bool := a == b

/-! ## Argument decoding of `setup_ffmpeg_encode` -/

/-- The values found by `arg_lookup(args, key, 0, &val)` for the keys that
`setup_ffmpeg_encode` reads up to the choice of the container (`none`: the
key is absent). The lookup itself belongs to the shmif library; a key given
without a value, for which `val` would be NULL, is not covered. -/
structure encode_args where
  vbitrate : Option String
  abitrate : Option String
  vpreset : Option String
  apreset : Option String
  container : Option String
  streamdst : Option String

/-- The locals of `setup_ffmpeg_encode` that are handed to the container and
codec setup (encode.c lines 598-616 and 632): `vbr` goes to
`video.setup.video`, `abr` to `audio.setup.audio`, `cont` and `streamdst` to
`encode_getcontainer`. -/
structure codec_hints where
  vbr : Nat
  abr : Nat
  cont : Option String
  streamdst : Option String
  stream_outp : Bool
deriving DecidableEq, Repr

/-- How far `setup_ffmpeg_encode` gets before the container is chosen. -/
inductive setup_stage where
  | odd_size
  | no_valid_streamdst
  | choose_container (h : codec_hints)
deriving DecidableEq, Repr

/-- The decoding of `vbitrate` and `vpreset` into `unsigned vbr` (encode.c
lines 537, 547-548, 551-552); the same statements decode `abitrate` and
`apreset` into `abr` (lines 549-550, 553-554). -/
def decode_rate (bitrate preset : Option String) : Nat :=
  let vbr : Nat := 5
  let vbr := match bitrate with
    | some val => to_unsigned ((strtoul val * 1024) % 2 ^ 64)
    | none => vbr
  match preset with
  | some val =>
    let vbr := to_unsigned (strtoul val)
    if vbr > 10 then 10 else vbr
  | none => vbr

/-- The function `setup_ffmpeg_encode` up to line 596: the size check, the
decoding of the arguments and the streaming override. -/
def setup_ffmpeg_encode_args (args : encode_args) (desw desh : Int) : setup_stage :=
  if desw.tmod 2 ≠ 0 ∨ desh.tmod 2 ≠ 0 then .odd_size
  else
    let vbr := decode_rate args.vbitrate args.vpreset
    let abr := decode_rate args.abitrate args.apreset
    match args.container with
    | some cont =>
      if streq cont "stream" then
        match args.streamdst with
        | none => .no_valid_streamdst
        | some dst =>
          if strncmp "rtmp://".toList dst.toList 7 ≠ 0 then .no_valid_streamdst
          else .choose_container
            { vbr := vbr, abr := abr, cont := some "stream", streamdst := some dst,
              stream_outp := true }
      else .choose_container
        { vbr := vbr, abr := abr, cont := some cont, streamdst := none,
          stream_outp := false }
    | none => .choose_container
        { vbr := vbr, abr := abr, cont := none, streamdst := none,
          stream_outp := false }

/-- The function `setup_ffmpeg_encode` (encode.c lines 516-683); `rest`
stands for lines 598-682, the setup of container, codecs and streams by the
preset functions, which are not part of this file. -/
def setup_ffmpeg_encode (rest : codec_hints → Bool) (args : encode_args)
    (desw desh : Int) : Bool :=
  match setup_ffmpeg_encode_args args desw desh with
  | .odd_size => false
  | .no_valid_streamdst => false
  | .choose_container h => rest h

/-! ## Protocol selection of `afsrv_encode` -/

/-- The conditional compilation switches of encode.c. -/
structure build_config where
  HAVE_VNCSERVER : Bool
  HAVE_V4L2 : Bool
  HAVE_OCR : Bool
deriving DecidableEq, Repr

/-- What the protocol selection does, in order: the protocol handlers it
runs and the log line "unsupported encoding protocol". -/
inductive action where
  | vnc_serv_run
  | v4l2_run
  | a12_serv_run
  | ocr_serv_run
  | png_stream_run
  | log_unsupported
deriving DecidableEq, Repr

/-- How the protocol selection ends: `afsrv_encode` returns `code`, or it
goes on to the video recording loop (encode.c line 794). -/
inductive selection_end where
  | returned (code : Int)
  | video_recording
deriving DecidableEq, Repr

/-- The protocol selection of `afsrv_encode` (encode.c lines 756-792) for a
`protocol` argument of value `argval`; every handler is an external function
that returns to its caller, `v4l2_result` being what `v4l2_run` returns. -/
def protocol_select (cfg : build_config) (v4l2_result : Int) (argval : String) :
    List action × selection_end :=
  if cfg.HAVE_VNCSERVER && streq argval "vnc" then
    ([.vnc_serv_run], .returned EXIT_SUCCESS)
  else if cfg.HAVE_V4L2 && streq argval "cam" then
    ([.v4l2_run], .returned v4l2_result)
  else
    let ran : List action := if streq argval "a12" then [.a12_serv_run] else []
    if cfg.HAVE_OCR && streq argval "ocr" then
      (ran ++ [.ocr_serv_run], .returned EXIT_SUCCESS)
    else if streq argval "png" then
      (ran ++ [.png_stream_run], .returned EXIT_SUCCESS)
    else if streq argval "video" then
      (ran, .video_recording)
    else
      (ran ++ [.log_unsupported], .returned EXIT_FAILURE)

/-- The protocol names listed by `dump_help` (encode.c lines 693-728), in the
order of the help text. -/
def documented_protocols (cfg : build_config) : List String :=
  (if cfg.HAVE_VNCSERVER then ["vnc"] else []) ++
  (if cfg.HAVE_V4L2 then ["cam"] else []) ++
  (if cfg.HAVE_OCR then ["ocr"] else []) ++
  ["a12", "png", "video"]

/-- The selection rejected the protocol as unsupported: it logged
"unsupported encoding protocol" and returned `EXIT_FAILURE`. -/
def rejected (r : List action × selection_end) : Bool :=
  r.1.contains .log_unsupported && decide (r.2 = .returned EXIT_FAILURE)

/-! ## The audio buffer of the encoder -/

/-- The audio fields of the static `recctx` (encode.c lines 86-100):
`acontext` records whether the pointer is non-NULL, `encabuf` holds the
`encabuf_sz` bytes of the intermediate buffer. -/
structure recctx where
  acontext : Bool
  silence_samples : Int
  encabuf : List Nat
  encabuf_ofs : Int
  encabuf_sz : Nat
deriving DecidableEq, Repr

/-- The audio part of the shared memory page: `abufused[0]` and the bytes
at `audp`. -/
structure shm_audio where
  abufused : Nat
  audp : List Nat
deriving DecidableEq, Repr

/-- Stores `bytes` in `buf` from offset `ofs` on (`memset`, `memcpy`). -/
def write_at (buf : List Nat) (ofs : Int) (bytes : List Nat) : List Nat :=
  buf.take ofs.toNat ++ bytes ++ buf.drop (ofs.toNat + bytes.length)

/-- The tail of `flush_audbuf` (encode.c lines 195-210): `ntc` bytes, found
`skip` bytes behind `audp`, are clipped to the room left and appended to the
encode buffer; the shared buffer is marked empty. -/
def copy_audio (r : recctx) (shm : shm_audio) (skip ntc : Nat) : recctx × shm_audio :=
  let ntc :=
    if to_size_t ((ntc : Int) + r.encabuf_ofs) > r.encabuf_sz then
      to_size_t ((r.encabuf_sz : Int) - r.encabuf_ofs)
    else ntc
  ({ r with
      encabuf := write_at r.encabuf r.encabuf_ofs ((shm.audp.drop skip).take ntc),
      encabuf_ofs := to_off_t (r.encabuf_ofs + (ntc : Int)) },
   { shm with abufused := 0 })

/-- The function `flush_audbuf` (encode.c lines 156-211). -/
def flush_audbuf (r : recctx) (shm : shm_audio) : recctx × shm_audio :=
  let ntc : Nat := shm.abufused
  if !r.acontext then
    (r, { shm with abufused := 0 })
  else if r.silence_samples > 0 then
    let room := to_size_t ((r.encabuf_sz : Int) - r.encabuf_ofs)
    let nti :=
      if to_size_t (shl2 r.silence_samples) > room then room
      else to_size_t (shl2 r.silence_samples)
    let nti := nti - nti % 4
    copy_audio
      { r with
        encabuf := write_at r.encabuf r.encabuf_ofs (List.replicate nti 0),
        encabuf_ofs := to_off_t (r.encabuf_ofs + (nti : Int)),
        silence_samples := to_int ((nti / 4 : Nat) : Int) }
      shm 0 ntc
  else if r.silence_samples < 0 then
    let ntd :=
      if ntc / 4 > to_size_t r.silence_samples then to_size_t (shl2 r.silence_samples)
      else ntc
    if ntd = ntc then
      ({ r with silence_samples := to_int (r.silence_samples - shl2 r.silence_samples) },
       { shm with abufused := 0 })
    else
      copy_audio r shm ntd (to_size_t ((ntc : Int) - (ntd : Int)))
  else
    copy_audio r shm 0 ntc

/-- An encoder with an audio context, an empty encode buffer of 16 bytes
(each 170) and a silence request of `s` samples. -/
def demo_recctx (s : Int) : recctx :=
  { acontext := true, silence_samples := s,
    encabuf := [170, 170, 170, 170, 170, 170, 170, 170,
                170, 170, 170, 170, 170, 170, 170, 170],
    encabuf_ofs := 0, encabuf_sz := 16 }

end Encode

/-! # The tui context setup (setup.c) -/

namespace TuiSetup

/-- The layout of `struct tui_cbcfg`, which is declared in arcan_tui.h and
not part of this file: `ptr_sz` is `sizeof(void*)` and `slots` the number of
members (the tag and the handlers, every one a pointer). -/
structure tui_layout where
  ptr_sz : Nat
  slots : Nat
deriving DecidableEq, Repr

/-- The value of `sizeof(struct tui_cbcfg)`. -/
def sizeof_tui_cbcfg (l : tui_layout) : Nat := l.slots * l.ptr_sz

/-- The connection handed in as `con`: `user` is the value of `con->user`
read as `uintptr_t`. -/
structure tui_conn where
  user : Nat
deriving DecidableEq, Repr

/-- The mark `0xdeadbeef` that `arcan_tui_open_display` stores in
`res->user` (setup.c line 115) and that `late_bind` tests (line 181). -/
def MANAGED_MARK : Nat := 3735928559

/-- The results of the calls into other files made by `arcan_tui_setup` and
`late_bind`: whether `malloc` yields memory, the return values of
`tsm_screen_new` and `tsm_utf8_mach_new`, the value that `apply_arg` stores
in `alpha` (present when the connection has arguments with a `bgalpha` key
and value), whether `arcan_shmif_initial` returns
`sizeof(struct arcan_shmif_initial)`, and whether it sets `init` to a
non-NULL pointer. -/
structure setup_env where
  malloc_ok : Bool
  tsm_screen_new : Int
  tsm_utf8_mach_new : Int
  bgalpha : Option Nat
  initial_size_ok : Bool
  initial_set : Bool
deriving DecidableEq, Repr

/-- The members of `struct tui_context` that are followed here: `alpha`,
the bytes of `handlers` (a `struct tui_cbcfg`) and the connection copied
into `acon` (`none` while unbound). Colours, cursor, density and fonts are
other members, indexed and typed by headers that are not part of this file;
they are not represented. -/
structure tui_context where
  alpha : Nat
  handlers : List Nat
  acon : Option tui_conn
deriving DecidableEq, Repr

/-- The C library's `memcpy(dst, src, n)` on byte lists: the first `n` bytes
of `dst` are replaced by the first `n` bytes of `src`. -/
def memcpy (dst src : List Nat) (n : Nat) : List Nat := src.take n ++ dst.drop n

/-- The function `apply_arg` (setup.c lines 54-94) on the members followed
here: only `alpha` is stored, from the `bgalpha` argument. -/
def apply_arg (env : setup_env) (src : tui_context) : tui_context :=
  match env.bgalpha with
  | some a => { src with alpha := a }
  | none => src

/-- How `late_bind` ends: it returns true with the context bound, it has
released the context with `free(res)` and returns NULL, or it reads
`init->colors` through a NULL `init` and does not return. -/
inductive bind_result where
  | bound (res : tui_context)
  | freed
  | null_deref
deriving DecidableEq, Repr

/-- The function `late_bind` (setup.c lines 172-245). The connection is
copied into `acon`; a context from `arcan_tui_open_display` is managed; on
a size mismatch of the initial structure a managed context is released
(lines 194-200); the loop of lines 228-236 reads `init->colors`. The calls
in between and the caller's `resized` handler (lines 240-242) belong to
other files; no statement of `late_bind` stores into `handlers`. -/
def late_bind (env : setup_env) (con : tui_conn) (res : tui_context) : bind_result :=
  let managed : Bool := decide (con.user = MANAGED_MARK)
  let res := { res with acon := some con }
  if !env.initial_size_ok && managed then .freed
  else if !env.initial_set then .null_deref
  else .bound res

/-- What `arcan_tui_setup` hands back: NULL, the pointer to a context that
is allocated and initialised, the pointer to a context that `late_bind` has
already released, or nothing because `late_bind` did not return. -/
inductive setup_result where
  | null
  | live (res : tui_context)
  | freed
  | null_deref
deriving DecidableEq, Repr

/-- The function `arcan_tui_setup` (setup.c lines 252-344); `cbs` is the
caller's table (`none`: NULL), `con` and `parent` likewise. The result of
`late_bind` is not looked at (line 338): when it has released `res`, the
function still passes `res` on and returns it (lines 341-343). The palette,
the colours of the parent, the fonts and the screen attributes (lines 294,
300, 302-316, 323-335, 341) go to members that are not represented. -/
def arcan_tui_setup (l : tui_layout) (env : setup_env) (con : Option tui_conn)
    (parent : Option tui_context) (cbs : Option (List Nat)) (cbs_sz : Nat) :
    setup_result :=
  match cbs with
  | none => .null
  | some table =>
    if !env.malloc_ok then .null
    else
      let res : tui_context :=
        { alpha := 255, handlers := List.replicate (sizeof_tui_cbcfg l) 0, acon := none }
      if env.tsm_screen_new < 0 then .null
      else if cbs_sz > sizeof_tui_cbcfg l ∨ cbs_sz % l.ptr_sz ≠ 0 then .null
      else
        let res := { res with handlers := memcpy res.handlers table cbs_sz }
        let res := apply_arg env res
        let res :=
          match parent with
          | some p => { res with alpha := p.alpha }
          | none => res
        if 0 ≠ env.tsm_utf8_mach_new then .null
        else
          match con with
          | none => .live res
          | some c =>
            match late_bind env c res with
            | .bound r => .live r
            | .freed => .freed
            | .null_deref => .null_deref

/-- The bytes of member number `i` of a handler table. -/
def slot (l : tui_layout) (table : List Nat) (i : Nat) : List Nat :=
  (table.drop (i * l.ptr_sz)).take l.ptr_sz

end TuiSetup

namespace ShlPty

/-! ## Basic facts about the ring and one write pass -/

theorem peek_eq_nil_iff (r : shl_ring) : shl_ring_peek r = [] ↔ r.data = [] := by
  unfold shl_ring_peek
  split <;> simp_all

theorem peek_of_ne_nil (r : shl_ring) (h : r.data ≠ []) :
    shl_ring_peek r = [r.data] := by
  simp [shl_ring_peek, h]

/-- On an empty ring the loop returns 0 (or the final 0) without a write. -/
theorem pty_write_loop_empty (beh : WriteBehaviour) (k : Nat) (pty : shl_pty)
    (t : Transport) (h : pty.out_buf.data = []) :
    pty_write_loop beh k pty t = (0, pty, t) := by
  cases k with
  | zero => simp [pty_write_loop, shl_ring_get_size, h]
  | succ k => simp [pty_write_loop, shl_ring_peek, h]

/-- One pass on a non-empty ring, by the answer of the descriptor. -/
theorem pty_write_loop_succ (beh : WriteBehaviour) (k : Nat) (pty : shl_pty)
    (t : Transport) (h : pty.out_buf.data ≠ []) :
    pty_write_loop beh (k + 1) pty t =
      match beh t.calls pty.out_buf.data with
      | .err errno =>
        if errno = EAGAIN then (0, pty, { t with calls := t.calls + 1 })
        else if errno = EINTR then (-EAGAIN, pty, { t with calls := t.calls + 1 })
        else (-errno, pty, { t with calls := t.calls + 1 })
      | .ok 0 => (-EPIPE, pty, { calls := t.calls + 1, observed := t.observed })
      | .ok (n + 1) =>
        pty_write_loop beh k
          { pty with out_buf := shl_ring_pull pty.out_buf (n + 1) }
          { calls := t.calls + 1,
            observed := t.observed ++ pty.out_buf.data.take (n + 1) } := by
  have hlen : 0 < pty.out_buf.data.length := List.length_pos.mpr h
  simp only [pty_write_loop, peek_of_ne_nil _ h, writev]
  simp only [List.length_singleton, List.take_succ_cons, List.take_zero,
    List.flatten, List.append_nil, one_ne_zero, if_false]
  cases hb : beh t.calls pty.out_buf.data with
  | err e => simp
  | ok n =>
    cases n with
    | zero => simp
    | succ n =>
      simp only
      by_cases hn : n + 1 ≤ pty.out_buf.data.length
      · rw [Nat.min_eq_left hn]
      · have hle : pty.out_buf.data.length ≤ n + 1 := by omega
        rw [Nat.min_eq_right hle]
        obtain ⟨m, hm⟩ : ∃ m, pty.out_buf.data.length = m + 1 := ⟨_, (Nat.succ_pred_eq_of_pos hlen).symm⟩
        simp only [hm]
        have e1 : shl_ring_pull pty.out_buf (m + 1) = shl_ring_pull pty.out_buf (n + 1) := by
          simp [shl_ring_pull, List.drop_of_length_le hle, ← hm]
        rw [e1]

/-- Whatever the descriptor answers, a run of the loop moves a leading part
of the ring to the transport: accepted bytes followed by pending bytes are
unchanged. -/
theorem pty_write_loop_conserves (beh : WriteBehaviour) (k : Nat) :
    ∀ (pty : shl_pty) (t : Transport),
      (pty_write_loop beh k pty t).2.2.observed ++
          (pty_write_loop beh k pty t).2.1.out_buf.data =
        t.observed ++ pty.out_buf.data := by
  induction k with
  | zero => intro pty t; simp [pty_write_loop]
  | succ k ih =>
    intro pty t
    by_cases h : pty.out_buf.data = []
    · rw [pty_write_loop_empty beh _ pty t h]
    · rw [pty_write_loop_succ beh k pty t h]
      cases hb : beh t.calls pty.out_buf.data with
      | err e => simp only; split_ifs <;> rfl
      | ok n =>
        cases n with
        | zero => rfl
        | succ n =>
          simp only
          rw [ih]
          simp [shl_ring_pull, List.append_assoc]

/-- The loop touches nothing of the pty but the content of the ring. -/
theorem pty_write_loop_frame (beh : WriteBehaviour) (k : Nat) :
    ∀ (pty : shl_pty) (t : Transport),
      (pty_write_loop beh k pty t).2.1 =
        { pty with out_buf :=
            { pty.out_buf with
              data := (pty_write_loop beh k pty t).2.1.out_buf.data } } := by
  induction k with
  | zero => intro pty t; simp [pty_write_loop]
  | succ k ih =>
    intro pty t
    by_cases h : pty.out_buf.data = []
    · rw [pty_write_loop_empty beh _ pty t h]
    · rw [pty_write_loop_succ beh k pty t h]
      cases hb : beh t.calls pty.out_buf.data with
      | err e => simp only; split_ifs <;> rfl
      | ok n =>
        cases n with
        | zero => rfl
        | succ n =>
          simp only
          rw [ih]
          simp [shl_ring_pull]

theorem pty_write_loop_fd (beh : WriteBehaviour) (k : Nat) (pty : shl_pty)
    (t : Transport) : (pty_write_loop beh k pty t).2.1.fd = pty.fd := by
  rw [pty_write_loop_frame]

/-- The loop with `k` passes issues at most `k` write calls. -/
theorem pty_write_loop_calls (beh : WriteBehaviour) (k : Nat) :
    ∀ (pty : shl_pty) (t : Transport),
      t.calls ≤ (pty_write_loop beh k pty t).2.2.calls ∧
        (pty_write_loop beh k pty t).2.2.calls ≤ t.calls + k := by
  induction k with
  | zero => intro pty t; simp [pty_write_loop]
  | succ k ih =>
    intro pty t
    by_cases h : pty.out_buf.data = []
    · rw [pty_write_loop_empty beh _ pty t h]; simp
    · rw [pty_write_loop_succ beh k pty t h]
      cases hb : beh t.calls pty.out_buf.data with
      | err e => simp only; split_ifs <;> simp
      | ok n =>
        cases n with
        | zero => simp
        | succ n =>
          simp only
          have := ih { pty with out_buf := shl_ring_pull pty.out_buf (n + 1) }
            { calls := t.calls + 1,
              observed := t.observed ++ pty.out_buf.data.take (n + 1) }
          simp only at this
          omega

/-- One call on an open pty keeps it open and adds to "accepted followed by
pending" exactly the bytes of a successful push. -/
theorem step_conserves (beh : WriteBehaviour) (p : shl_pty) (t : Transport)
    (op : Op) (hopen : shl_pty_is_open (some p) = true) :
    ∃ q : shl_pty, (step beh (some p, t) op).2.1 = some q ∧
      shl_pty_is_open (some q) = true ∧
      (step beh (some p, t) op).2.2.observed ++ q.out_buf.data =
        t.observed ++ p.out_buf.data ++
          (match op with
           | .enqueue u8 => if (step beh (some p, t) op).1 = 0 then u8 else []
           | _ => []) := by
  have hfd : decide (p.fd ≥ 0) = true := hopen
  cases op with
  | pump =>
    refine ⟨(pty_write beh p t).2.1, rfl, ?_, ?_⟩
    · simpa [shl_pty_is_open, pty_write, pty_write_loop_fd] using hfd
    · simp [step, pty_write, pty_write_loop_conserves]
  | dispatch =>
    refine ⟨(pty_write beh p t).2.1, ?_, ?_, ?_⟩
    · simp [step, shl_pty_dispatch, hopen]
    · simpa [shl_pty_is_open, pty_write, pty_write_loop_fd] using hfd
    · simp [step, shl_pty_dispatch, hopen, pty_write, pty_write_loop_conserves]
  | enqueue u8 =>
    refine ⟨(pty_write beh { p with out_buf := (shl_ring_push p.out_buf u8).2 } t).2.1,
      ?_, ?_, ?_⟩
    · simp [step, shl_pty_write, hopen]
    · simpa [shl_pty_is_open, pty_write, pty_write_loop_fd] using hfd
    · simp only [step, shl_pty_write, hopen, pty_write, Bool.not_true,
        Bool.false_eq_true, if_false]
      rw [pty_write_loop_conserves]
      by_cases hc : p.out_buf.data.length + u8.length ≤ p.out_buf.capacity
      · simp [shl_ring_push, hc]
      · simp [shl_ring_push, hc, ENOMEM]

/-- Conservation along a run: after any sequence of calls on an open pty
whose pushes succeed, accepted bytes followed by pending bytes are the
initial ones followed by the enqueued strings. -/
theorem run_conserves (beh : WriteBehaviour) (ops : List Op) :
    ∀ (p : shl_pty) (t : Transport), shl_pty_is_open (some p) = true →
      pushes_succeed beh ops (some p, t) = true →
      (run beh ops (some p, t)).2.observed ++ pending (run beh ops (some p, t)).1 =
        t.observed ++ p.out_buf.data ++ enqueued ops := by
  induction ops with
  | nil => intro p t _ _; simp [run, pending, enqueued]
  | cons op ops ih =>
    intro p t hopen hpush
    obtain ⟨q, hq, hqopen, hcons⟩ := step_conserves beh p t op hopen
    have hstate : (step beh (some p, t) op).2 = (some q, (step beh (some p, t) op).2.2) := by
      rw [← hq]
    cases op with
    | enqueue u8 =>
      simp only [pushes_succeed, Bool.and_eq_true, decide_eq_true_eq] at hpush
      rw [hstate] at hpush
      simp only [run]
      rw [hstate, ih q _ hqopen hpush.2, hcons]
      simp [hpush.1, enqueued, List.append_assoc]
    | pump =>
      simp only [pushes_succeed] at hpush
      rw [hstate] at hpush
      simp only [run]
      rw [hstate, ih q _ hqopen hpush, hcons]
      simp [enqueued]
    | dispatch =>
      simp only [pushes_succeed] at hpush
      rw [hstate] at hpush
      simp only [run]
      rw [hstate, ih q _ hqopen hpush, hcons]
      simp [enqueued]

/-! ## Claims on the output side -/

/-- Claim C1: for every behaviour of the transport and every sequence of
`shl_pty_write` calls whose ring push succeeds and of `pty_write` and
`shl_pty_dispatch` calls on an open pty, the bytes accepted by the transport
so far followed by the bytes still held in the outbound ring are the initial
ones (none for a fresh pty) followed by the concatenation of all enqueued
byte strings in enqueue order. -/
theorem C1_fifo_order_preserved (beh : WriteBehaviour) (ops : List Op)
    (p : shl_pty) (t : Transport)
    (hopen : shl_pty_is_open (some p) = true)
    (hpush : pushes_succeed beh ops (some p, t) = true) :
    (run beh ops (some p, t)).2.observed ++ pending (run beh ops (some p, t)).1 =
      t.observed ++ p.out_buf.data ++ enqueued ops :=
  run_conserves beh ops p t hopen hpush

/-- Instance of C1: two enqueues interleaved with a pump and a dispatch on a
transport that takes two bytes, would block, then takes one, three, ... -/
theorem C1_fifo_order_preserved_witness :
    (run (scripted [.ok 2, .err EAGAIN, .ok 1, .ok 3])
        [.enqueue [1, 2, 3], .pump, .enqueue [4, 5], .dispatch]
        (some (demo_pty []), fresh)).2.observed ++
      pending (run (scripted [.ok 2, .err EAGAIN, .ok 1, .ok 3])
        [.enqueue [1, 2, 3], .pump, .enqueue [4, 5], .dispatch]
        (some (demo_pty []), fresh)).1 =
      fresh.observed ++ (demo_pty []).out_buf.data ++
        enqueued [.enqueue [1, 2, 3], .pump, .enqueue [4, 5], .dispatch] :=
  C1_fifo_order_preserved (scripted [.ok 2, .err EAGAIN, .ok 1, .ok 3])
    [.enqueue [1, 2, 3], .pump, .enqueue [4, 5], .dispatch] (demo_pty []) fresh
    (by decide) (by decide)

/-- Two passes that both accept a positive count: the state afterwards and
the return value. -/
theorem pty_write_two_accepts (beh : WriteBehaviour) (p : shl_pty)
    (t : Transport) (n1 n2 : Nat)
    (h1 : beh t.calls p.out_buf.data = .ok (n1 + 1))
    (hne : p.out_buf.data.drop (n1 + 1) ≠ [])
    (h2 : beh (t.calls + 1) (p.out_buf.data.drop (n1 + 1)) = .ok (n2 + 1)) :
    pty_write beh p t =
      (if (p.out_buf.data.drop (n1 + 1 + (n2 + 1))).length > 0 then -EAGAIN else 0,
       { p with out_buf :=
           { p.out_buf with data := p.out_buf.data.drop (n1 + 1 + (n2 + 1)) } },
       { calls := t.calls + 2,
         observed := t.observed ++ p.out_buf.data.take (n1 + 1 + (n2 + 1)) }) := by
  have hne0 : p.out_buf.data ≠ [] := by
    intro h; rw [h] at hne; simp at hne
  unfold pty_write
  rw [pty_write_loop_succ beh 1 p t hne0, h1]
  simp only
  rw [pty_write_loop_succ beh 0 _ _ (by simpa [shl_ring_pull] using hne)]
  simp only [shl_ring_pull, h2, pty_write_loop, shl_ring_get_size, List.drop_drop,
    List.append_assoc]
  rw [List.take_add p.out_buf.data (n1 + 1) (n2 + 1)]

/-- Scenario A, a call with more than 8192 bytes pending: both passes move
4096 bytes and more work is reported. -/
theorem pty_write_accept4096_more (p : shl_pty) (t : Transport)
    (h : 8192 < p.out_buf.data.length) :
    pty_write accept4096 p t =
      (-EAGAIN,
       { p with out_buf := { p.out_buf with data := p.out_buf.data.drop 8192 } },
       { calls := t.calls + 2, observed := t.observed ++ p.out_buf.data.take 8192 }) := by
  have h1 : accept4096 t.calls p.out_buf.data = .ok (4095 + 1) := by
    simp only [accept4096]; exact congrArg SysResult.ok (by omega)
  have hne : p.out_buf.data.drop (4095 + 1) ≠ [] := by
    intro hd
    have := congrArg List.length hd
    simp only [List.length_drop, List.length_nil] at this
    omega
  have h2 : accept4096 (t.calls + 1) (p.out_buf.data.drop (4095 + 1)) = .ok (4095 + 1) := by
    simp only [accept4096, List.length_drop]; exact congrArg SysResult.ok (by omega)
  rw [pty_write_two_accepts accept4096 p t 4095 4095 h1 hne h2]
  have hpos : (List.drop (4095 + 1 + (4095 + 1)) p.out_buf.data).length > 0 := by
    simp only [List.length_drop]; omega
  rw [if_pos hpos]

/-- Scenario A, a call with between 4097 and 8192 bytes pending: the two
passes drain the ring and 0 is returned. -/
theorem pty_write_accept4096_last (p : shl_pty) (t : Transport)
    (hlo : 4096 < p.out_buf.data.length) (hhi : p.out_buf.data.length ≤ 8192) :
    pty_write accept4096 p t =
      (0,
       { p with out_buf := { p.out_buf with data := [] } },
       { calls := t.calls + 2, observed := t.observed ++ p.out_buf.data }) := by
  have h1 : accept4096 t.calls p.out_buf.data = .ok (4095 + 1) := by
    simp only [accept4096]; exact congrArg SysResult.ok (by omega)
  have hne : p.out_buf.data.drop (4095 + 1) ≠ [] := by
    intro hd
    have := congrArg List.length hd
    simp only [List.length_drop, List.length_nil] at this
    omega
  have h2 : accept4096 (t.calls + 1) (p.out_buf.data.drop (4095 + 1)) =
      .ok (p.out_buf.data.length - 4097 + 1) := by
    simp only [accept4096, List.length_drop]; exact congrArg SysResult.ok (by omega)
  rw [pty_write_two_accepts accept4096 p t 4095 _ h1 hne h2]
  have hall : 4095 + 1 + (p.out_buf.data.length - 4097 + 1) = p.out_buf.data.length := by
    omega
  rw [hall]
  simp

/-- Claim C2 (Scenario A): with 40000 bytes in the outbound ring of an open
pty and a transport that accepts min(4096, offered) bytes on every write
call, the first four invocations of `pty_write` return -EAGAIN and the fifth
returns 0; afterwards the ring is empty and the transport has accepted
exactly the 40000 bytes, in order, in ten write calls. -/
theorem C2_scenario_A (p : shl_pty) (t : Transport)
    (hopen : shl_pty_is_open (some p) = true)
    (hlen : p.out_buf.data.length = 40000) :
    shl_pty_is_open (some (pty_write_n accept4096 5 p t).2.1) = true ∧
    pty_write_n accept4096 5 p t =
      ([-EAGAIN, -EAGAIN, -EAGAIN, -EAGAIN, 0],
       { p with out_buf := { p.out_buf with data := [] } },
       { calls := t.calls + 10, observed := t.observed ++ p.out_buf.data }) := by
  have key : pty_write_n accept4096 5 p t =
      ([-EAGAIN, -EAGAIN, -EAGAIN, -EAGAIN, 0],
       { p with out_buf := { p.out_buf with data := [] } },
       { calls := t.calls + 10, observed := t.observed ++ p.out_buf.data }) := by
    simp only [pty_write_n]
    rw [pty_write_accept4096_more p t (by omega)]
    simp only
    rw [pty_write_accept4096_more _ _ (by simp only [List.length_drop]; omega)]
    simp only
    rw [pty_write_accept4096_more _ _ (by simp only [List.length_drop]; omega)]
    simp only
    rw [pty_write_accept4096_more _ _ (by simp only [List.length_drop]; omega)]
    simp only
    rw [pty_write_accept4096_last _ _ (by simp only [List.length_drop]; omega)
      (by simp only [List.length_drop]; omega)]
    simp only [List.drop_drop, List.append_assoc]
    have e : List.take 8192 p.out_buf.data ++
        (List.take 8192 (List.drop 8192 p.out_buf.data) ++
          (List.take 8192 (List.drop (8192 + 8192) p.out_buf.data) ++
            (List.take 8192 (List.drop (8192 + (8192 + 8192)) p.out_buf.data) ++
              List.drop (8192 + (8192 + (8192 + 8192))) p.out_buf.data))) =
        p.out_buf.data := by
      rw [show 8192 + (8192 + (8192 + 8192)) = 8192 + (8192 + (8192 + 8192)) from rfl,
        ← List.drop_drop 8192 (8192 + (8192 + 8192)), List.take_append_drop,
        ← List.drop_drop 8192 (8192 + 8192), List.take_append_drop,
        ← List.drop_drop 8192 8192, List.take_append_drop, List.take_append_drop]
    simp only [e, Nat.add_assoc]
  refine ⟨?_, key⟩
  rw [key]
  exact hopen

/-- Instance of C2: 40000 zero bytes on a fresh descriptor. -/
theorem C2_scenario_A_witness :
    shl_pty_is_open (some (pty_write_n accept4096 5
        { ref := 1, fd := 3, child := 100, in_buf := [],
          out_buf := { data := List.replicate 40000 0, capacity := 65536 },
          fn_input := false } fresh).2.1) = true ∧
    pty_write_n accept4096 5
        { ref := 1, fd := 3, child := 100, in_buf := [],
          out_buf := { data := List.replicate 40000 0, capacity := 65536 },
          fn_input := false } fresh =
      ([-EAGAIN, -EAGAIN, -EAGAIN, -EAGAIN, 0],
       { ref := 1, fd := 3, child := 100, in_buf := [],
         out_buf := { data := [], capacity := 65536 }, fn_input := false },
       { calls := fresh.calls + 10,
         observed := fresh.observed ++ List.replicate 40000 0 }) :=
  C2_scenario_A
    { ref := 1, fd := 3, child := 100, in_buf := [],
      out_buf := { data := List.replicate 40000 0, capacity := 65536 },
      fn_input := false } fresh (by decide) (List.length_replicate 40000 0)

/-- Claim C3: for every ring content and transport behaviour one invocation
of `pty_write` issues at most two write calls; when both writes take place
and accept a positive number of bytes (`n1`, then `n2`), it returns -EAGAIN
if and only if the ring is still non-empty afterwards and 0 if and only if
the ring is empty afterwards. -/
theorem C3_at_most_two_writes (beh : WriteBehaviour) (p : shl_pty)
    (t : Transport) :
    (pty_write beh p t).2.2.calls ≤ t.calls + 2 ∧
    ∀ n1 n2 : Nat, 0 < n1 → 0 < n2 →
      beh t.calls p.out_buf.data = .ok n1 →
      p.out_buf.data.drop n1 ≠ [] →
      beh (t.calls + 1) (p.out_buf.data.drop n1) = .ok n2 →
      (pty_write beh p t).2.2.calls = t.calls + 2 ∧
      ((pty_write beh p t).1 = -EAGAIN ↔ (pty_write beh p t).2.1.out_buf.data ≠ []) ∧
      ((pty_write beh p t).1 = 0 ↔ (pty_write beh p t).2.1.out_buf.data = []) := by
  refine ⟨(pty_write_loop_calls beh 2 p t).2, ?_⟩
  intro n1 n2 hn1 hn2 h1 hne h2
  obtain ⟨m1, rfl⟩ : ∃ m, n1 = m + 1 := ⟨n1 - 1, by omega⟩
  obtain ⟨m2, rfl⟩ : ∃ m, n2 = m + 1 := ⟨n2 - 1, by omega⟩
  rw [pty_write_two_accepts beh p t m1 m2 h1 hne h2]
  simp only [gt_iff_lt, List.length_pos, ne_eq, true_and]
  by_cases hd : List.drop (m1 + 1 + (m2 + 1)) p.out_buf.data = []
  · simp [hd, EAGAIN]
  · simp [hd, EAGAIN]

/-- Instance of C3: three bytes pending, both writes accept one byte, one
byte is left and -EAGAIN is returned. -/
theorem C3_at_most_two_writes_witness :
    (pty_write (scripted [.ok 1, .ok 1]) (demo_pty [1, 2, 3]) fresh).2.2.calls =
        fresh.calls + 2 ∧
      ((pty_write (scripted [.ok 1, .ok 1]) (demo_pty [1, 2, 3]) fresh).1 = -EAGAIN ↔
        (pty_write (scripted [.ok 1, .ok 1]) (demo_pty [1, 2, 3])
          fresh).2.1.out_buf.data ≠ []) ∧
      ((pty_write (scripted [.ok 1, .ok 1]) (demo_pty [1, 2, 3]) fresh).1 = 0 ↔
        (pty_write (scripted [.ok 1, .ok 1]) (demo_pty [1, 2, 3])
          fresh).2.1.out_buf.data = []) :=
  (C3_at_most_two_writes (scripted [.ok 1, .ok 1]) (demo_pty [1, 2, 3]) fresh).2
    1 1 (by decide) (by decide) (by decide) (by decide) (by decide)

/-- Claim C4: in `pty_write`, a write call that accepts zero bytes, in the
first or in the second pass, makes the function return -EPIPE (Closed); a
write that fails with EAGAIN (would-block), in the first or in the second
pass, makes it return 0; the two results differ, and in neither case does
that pass remove bytes from the outbound ring or hand bytes to the
transport. -/
theorem C4_zero_write_closed (beh : WriteBehaviour) (p : shl_pty)
    (t : Transport) (hne : p.out_buf.data ≠ []) :
    (beh t.calls p.out_buf.data = .ok 0 →
      pty_write beh p t = (-EPIPE, p, { t with calls := t.calls + 1 })) ∧
    (beh t.calls p.out_buf.data = .err EAGAIN →
      pty_write beh p t = (0, p, { t with calls := t.calls + 1 })) ∧
    (∀ n1 : Nat, 0 < n1 → beh t.calls p.out_buf.data = .ok n1 →
      p.out_buf.data.drop n1 ≠ [] →
      (beh (t.calls + 1) (p.out_buf.data.drop n1) = .ok 0 →
        pty_write beh p t =
          (-EPIPE, { p with out_buf := shl_ring_pull p.out_buf n1 },
           { calls := t.calls + 2,
             observed := t.observed ++ p.out_buf.data.take n1 })) ∧
      (beh (t.calls + 1) (p.out_buf.data.drop n1) = .err EAGAIN →
        pty_write beh p t =
          (0, { p with out_buf := shl_ring_pull p.out_buf n1 },
           { calls := t.calls + 2,
             observed := t.observed ++ p.out_buf.data.take n1 }))) ∧
    (-EPIPE : Int) ≠ 0 := by
  refine ⟨?_, ?_, ?_, by decide⟩
  · intro h
    unfold pty_write
    rw [pty_write_loop_succ beh 1 p t hne, h]
  · intro h
    unfold pty_write
    rw [pty_write_loop_succ beh 1 p t hne, h]
    simp
  · intro n1 hn1 h1 hd
    obtain ⟨m1, rfl⟩ : ∃ m, n1 = m + 1 := ⟨n1 - 1, by omega⟩
    have hd2 : (shl_ring_pull p.out_buf (m1 + 1)).data ≠ [] := by
      simpa [shl_ring_pull] using hd
    constructor
    · intro h2
      unfold pty_write
      rw [pty_write_loop_succ beh 1 p t hne, h1]
      simp only
      rw [pty_write_loop_succ beh 0 _ _ hd2]
      simp only [shl_ring_pull] at h2 ⊢
      rw [h2]
    · intro h2
      unfold pty_write
      rw [pty_write_loop_succ beh 1 p t hne, h1]
      simp only
      rw [pty_write_loop_succ beh 0 _ _ hd2]
      simp only [shl_ring_pull] at h2 ⊢
      rw [h2]
      simp

/-- Instance of C4 on a ring holding three bytes: a zero-byte write and a
would-block, each in the first pass and in the second pass (after a first
write of two bytes). -/
theorem C4_zero_write_closed_witness :
    pty_write (scripted [.ok 0]) (demo_pty [1, 2, 3]) fresh =
      (-EPIPE, demo_pty [1, 2, 3], { fresh with calls := fresh.calls + 1 }) ∧
    pty_write (scripted [.err EAGAIN]) (demo_pty [1, 2, 3]) fresh =
      (0, demo_pty [1, 2, 3], { fresh with calls := fresh.calls + 1 }) ∧
    pty_write (scripted [.ok 2, .ok 0]) (demo_pty [1, 2, 3]) fresh =
      (-EPIPE, demo_pty [3], { calls := 2, observed := [1, 2] }) ∧
    pty_write (scripted [.ok 2, .err EAGAIN]) (demo_pty [1, 2, 3]) fresh =
      (0, demo_pty [3], { calls := 2, observed := [1, 2] }) :=
  ⟨(C4_zero_write_closed (scripted [.ok 0]) (demo_pty [1, 2, 3]) fresh
      (by decide)).1 (by decide),
   (C4_zero_write_closed (scripted [.err EAGAIN]) (demo_pty [1, 2, 3]) fresh
      (by decide)).2.1 (by decide),
   ((C4_zero_write_closed (scripted [.ok 2, .ok 0]) (demo_pty [1, 2, 3]) fresh
      (by decide)).2.2.1 2 (by decide) (by decide) (by decide)).1 (by decide),
   ((C4_zero_write_closed (scripted [.ok 2, .err EAGAIN]) (demo_pty [1, 2, 3]) fresh
      (by decide)).2.2.1 2 (by decide) (by decide) (by decide)).2 (by decide)⟩

/-- Claim C8: `pty_write` on a pty whose outbound ring is empty returns 0,
issues no write call and leaves the pty and the ring unchanged, whatever the
transport would answer; hence any number of repeated calls returns 0 each
time and leaves the state as if none had been made. -/
theorem C8_empty_ring_noop (beh : WriteBehaviour) (p : shl_pty) (t : Transport)
    (hempty : p.out_buf.data = []) :
    pty_write beh p t = (0, p, t) ∧
    ∀ n : Nat, pty_write_n beh n p t = (List.replicate n 0, p, t) := by
  have h1 : pty_write beh p t = (0, p, t) := pty_write_loop_empty beh 2 p t hempty
  refine ⟨h1, ?_⟩
  intro n
  induction n with
  | zero => rfl
  | succ n ih => simp only [pty_write_n, h1, ih, List.replicate_succ]

/-- Instance of C8: an open pty with an empty ring on a descriptor that
would report a closed peer if it were written to. -/
theorem C8_empty_ring_noop_witness :
    pty_write (scripted [.ok 0]) (demo_pty []) fresh = (0, demo_pty [], fresh) ∧
    ∀ n : Nat, pty_write_n (scripted [.ok 0]) n (demo_pty []) fresh =
      (List.replicate n 0, demo_pty [], fresh) :=
  C8_empty_ring_noop (scripted [.ok 0]) (demo_pty []) fresh rfl

/-- Claim C10: a write of `pty_write` that fails with would-block (EAGAIN)
or with signal interruption (EINTR), in the first or in the second pass,
never yields Closed (-EPIPE) or a Fatal code: the result is 0 or -EAGAIN,
and the failing pass removes nothing from the outbound ring and hands
nothing to the transport. -/
theorem C10_transient_absorbed (beh : WriteBehaviour) (p : shl_pty)
    (t : Transport) (e : Int) (he : e = EAGAIN ∨ e = EINTR)
    (hne : p.out_buf.data ≠ []) :
    (beh t.calls p.out_buf.data = .err e →
      ((pty_write beh p t).1 = 0 ∨ (pty_write beh p t).1 = -EAGAIN) ∧
      (pty_write beh p t).1 ≠ -EPIPE ∧
      (pty_write beh p t).2.1 = p ∧
      (pty_write beh p t).2.2.observed = t.observed) ∧
    (∀ n1 : Nat, 0 < n1 → beh t.calls p.out_buf.data = .ok n1 →
      p.out_buf.data.drop n1 ≠ [] →
      beh (t.calls + 1) (p.out_buf.data.drop n1) = .err e →
      ((pty_write beh p t).1 = 0 ∨ (pty_write beh p t).1 = -EAGAIN) ∧
      (pty_write beh p t).1 ≠ -EPIPE ∧
      (pty_write beh p t).2.1 = { p with out_buf := shl_ring_pull p.out_buf n1 } ∧
      (pty_write beh p t).2.2.observed = t.observed ++ p.out_buf.data.take n1) := by
  constructor
  · intro h
    unfold pty_write
    rw [pty_write_loop_succ beh 1 p t hne, h]
    rcases he with rfl | rfl <;> simp [EAGAIN, EINTR, EPIPE]
  · intro n1 hn1 h1 hd h2
    obtain ⟨m1, rfl⟩ : ∃ m, n1 = m + 1 := ⟨n1 - 1, by omega⟩
    have hd2 : (shl_ring_pull p.out_buf (m1 + 1)).data ≠ [] := by
      simpa [shl_ring_pull] using hd
    unfold pty_write
    rw [pty_write_loop_succ beh 1 p t hne, h1]
    simp only
    rw [pty_write_loop_succ beh 0 _ _ hd2]
    simp only [shl_ring_pull] at h2 ⊢
    rw [h2]
    rcases he with rfl | rfl <;> simp [EAGAIN, EINTR, EPIPE]

/-- Instance of C10: an interrupted first write, and an interrupted second
write after a first write of two bytes. -/
theorem C10_transient_absorbed_witness :
    (((pty_write (scripted [.err EINTR]) (demo_pty [1, 2, 3]) fresh).1 = 0 ∨
        (pty_write (scripted [.err EINTR]) (demo_pty [1, 2, 3]) fresh).1 = -EAGAIN) ∧
      (pty_write (scripted [.err EINTR]) (demo_pty [1, 2, 3]) fresh).1 ≠ -EPIPE ∧
      (pty_write (scripted [.err EINTR]) (demo_pty [1, 2, 3]) fresh).2.1 =
        demo_pty [1, 2, 3] ∧
      (pty_write (scripted [.err EINTR]) (demo_pty [1, 2, 3]) fresh).2.2.observed =
        fresh.observed) ∧
    (((pty_write (scripted [.ok 2, .err EINTR]) (demo_pty [1, 2, 3]) fresh).1 = 0 ∨
        (pty_write (scripted [.ok 2, .err EINTR]) (demo_pty [1, 2, 3]) fresh).1 =
          -EAGAIN) ∧
      (pty_write (scripted [.ok 2, .err EINTR]) (demo_pty [1, 2, 3]) fresh).1 ≠ -EPIPE ∧
      (pty_write (scripted [.ok 2, .err EINTR]) (demo_pty [1, 2, 3]) fresh).2.1 =
        demo_pty [3] ∧
      (pty_write (scripted [.ok 2, .err EINTR]) (demo_pty [1, 2, 3])
        fresh).2.2.observed = [1, 2]) :=
  ⟨(C10_transient_absorbed (scripted [.err EINTR]) (demo_pty [1, 2, 3]) fresh EINTR
      (Or.inr rfl) (by decide)).1 (by decide),
   (C10_transient_absorbed (scripted [.ok 2, .err EINTR]) (demo_pty [1, 2, 3]) fresh
      EINTR (Or.inr rfl) (by decide)).2 2 (by decide) (by decide) (by decide)
      (by decide)⟩

/-! ## Claims on the entry point -/

/-- Claim C5, as stated, fails: on an open pty whose ring holds three bytes,
a zero-byte write makes `pty_write` return -EPIPE (Closed) and a write
failing with EBADF makes it return -EBADF (Fatal), yet `shl_pty_dispatch`
returns 0 in both cases. -/
theorem C5_dispatch_propagates_counterexample :
    shl_pty_is_open (some (demo_pty [1, 2, 3])) = true ∧
    (pty_write (scripted [.ok 0]) (demo_pty [1, 2, 3]) fresh).1 = -EPIPE ∧
    (shl_pty_dispatch (scripted [.ok 0]) (some (demo_pty [1, 2, 3])) fresh).1 = 0 ∧
    (pty_write (scripted [.err EBADF]) (demo_pty [1, 2, 3]) fresh).1 = -EBADF ∧
    (shl_pty_dispatch (scripted [.err EBADF]) (some (demo_pty [1, 2, 3])) fresh).1 = 0 ∧
    ¬ ((shl_pty_dispatch (scripted [.ok 0]) (some (demo_pty [1, 2, 3])) fresh).1 < 0) ∧
    ¬ ((shl_pty_dispatch (scripted [.err EBADF]) (some (demo_pty [1, 2, 3])) fresh).1 < 0) := by
  decide

/-- Claim C5, amended: when the output pump `pty_write` meets a zero-byte
write (Closed) or an unexpected errno (Fatal) on an open pty, `pty_write`
itself returns -EPIPE, respectively the negative value -errno; the entry
point `shl_pty_dispatch` runs `pty_write`, discards that value and returns 0
on every open pty, and returns a non-zero value (-ENODEV) only for a NULL or
closed pty. -/
theorem C5_dispatch_discards_outcome (beh : WriteBehaviour) (p : shl_pty)
    (t : Transport) (hopen : shl_pty_is_open (some p) = true) :
    shl_pty_dispatch beh (some p) t =
      (0, some (pty_write beh p t).2.1, (pty_write beh p t).2.2) ∧
    (p.out_buf.data ≠ [] → beh t.calls p.out_buf.data = .ok 0 →
      (pty_write beh p t).1 = -EPIPE ∧ -EPIPE < 0) ∧
    (∀ e : Int, p.out_buf.data ≠ [] → 0 < e → e ≠ EAGAIN → e ≠ EINTR →
      beh t.calls p.out_buf.data = .err e →
      (pty_write beh p t).1 = -e ∧ -e < 0) ∧
    shl_pty_dispatch beh none t = (-ENODEV, none, t) ∧
    (∀ q : shl_pty, shl_pty_is_open (some q) = false →
      shl_pty_dispatch beh (some q) t = (-ENODEV, some q, t)) ∧
    (-ENODEV : Int) ≠ 0 := by
  refine ⟨?_, ?_, ?_, rfl, ?_, by decide⟩
  · simp [shl_pty_dispatch, hopen]
  · intro hne h
    refine ⟨?_, by decide⟩
    unfold pty_write
    rw [pty_write_loop_succ beh 1 p t hne, h]
  · intro e hne hpos h1 h2 h
    refine ⟨?_, by omega⟩
    unfold pty_write
    rw [pty_write_loop_succ beh 1 p t hne, h]
    simp [h1, h2]
  · intro q hq
    simp [shl_pty_dispatch, hq]

/-- Instance of the amended C5: a zero-byte write on the open demo pty. -/
theorem C5_dispatch_discards_outcome_witness :
    shl_pty_dispatch (scripted [.ok 0]) (some (demo_pty [1, 2, 3])) fresh =
      (0, some (pty_write (scripted [.ok 0]) (demo_pty [1, 2, 3]) fresh).2.1,
       (pty_write (scripted [.ok 0]) (demo_pty [1, 2, 3]) fresh).2.2) ∧
    ((pty_write (scripted [.ok 0]) (demo_pty [1, 2, 3]) fresh).1 = -EPIPE ∧
      -EPIPE < 0) :=
  ⟨(C5_dispatch_discards_outcome (scripted [.ok 0]) (demo_pty [1, 2, 3]) fresh
      (by decide)).1,
   (C5_dispatch_discards_outcome (scripted [.ok 0]) (demo_pty [1, 2, 3]) fresh
      (by decide)).2.1 (by decide) (by decide)⟩

/-! ## One read pass -/

theorem bufsize_pred : SHL_PTY_BUFSIZE - 1 = 16383 := by decide

theorem take_bufsize_ne_nil (bs : List Byte) (h : bs ≠ []) :
    bs.take (SHL_PTY_BUFSIZE - 1) ≠ [] := by
  cases bs with
  | nil => exact absurd rfl h
  | cons b bs => rw [bufsize_pred]; simp

theorem length_take_bufsize (bs : List Byte) :
    (bs.take (SHL_PTY_BUFSIZE - 1)).length ≤ 16383 := by
  rw [List.length_take, bufsize_pred]; omega

/-- Writing the terminating zero behind the bytes read leaves them alone. -/
theorem take_set_append (got rest : List Byte) :
    ((got ++ rest).set got.length 0).take got.length = got := by
  rw [List.set_append_right _ _ (Nat.le_refl _)]
  simp

/-- A failed read ends the loop: 0 for EAGAIN and EINTR, -errno else. -/
theorem pty_read_loop_err (beh : ReadBehaviour) (k nr : Nat) (pty : shl_pty)
    (s : Source) (e : Int) (h : beh s.calls = .err e) :
    pty_read_loop beh (k + 1) nr pty s =
      (if e = EAGAIN then 0 else if e = EINTR then 0 else -e, pty,
       { calls := s.calls + 1,
         trace := s.trace ++ [.read_call (SHL_PTY_BUFSIZE - 1)] }) := by
  simp only [pty_read_loop, read, h]
  split_ifs <;> rfl

/-- A read of zero bytes ends the loop with -EPIPE. -/
theorem pty_read_loop_eof (beh : ReadBehaviour) (k nr : Nat) (pty : shl_pty)
    (s : Source) (h : beh s.calls = .data []) :
    pty_read_loop beh (k + 1) nr pty s =
      (-EPIPE, pty,
       { calls := s.calls + 1,
         trace := s.trace ++ [.read_call (SHL_PTY_BUFSIZE - 1)] }) := by
  simp [pty_read_loop, read, h]

/-- A read that returns data, with an input callback: the chunk is handed
over and the loop goes on. -/
theorem pty_read_loop_data (beh : ReadBehaviour) (k nr : Nat) (pty : shl_pty)
    (s : Source) (bs : List Byte) (h : beh s.calls = .data bs) (hne : bs ≠ [])
    (hcb : pty.fn_input = true) :
    pty_read_loop beh (k + 1) nr pty s =
      pty_read_loop beh k
        ((nr + (bs.take (SHL_PTY_BUFSIZE - 1)).length) % 2 ^ 64)
        { pty with
          in_buf :=
            List.set
              (bs.take (SHL_PTY_BUFSIZE - 1) ++
                pty.in_buf.drop (bs.take (SHL_PTY_BUFSIZE - 1)).length)
              (bs.take (SHL_PTY_BUFSIZE - 1)).length 0 }
        { calls := s.calls + 1,
          trace := s.trace ++ [.read_call (SHL_PTY_BUFSIZE - 1),
            .fn_input (bs.take (SHL_PTY_BUFSIZE - 1))] } := by
  have hg := take_bufsize_ne_nil bs hne
  generalize hgot : bs.take (SHL_PTY_BUFSIZE - 1) = got at hg ⊢
  obtain ⟨l, hl⟩ : ∃ l, got.length = l + 1 :=
    ⟨got.length - 1, (Nat.succ_pred_eq_of_pos (List.length_pos.mpr hg)).symm⟩
  simp only [pty_read_loop, read, h, hgot, hl, hcb, if_true]
  rw [← hl, take_set_append]
  simp

/-- A read that returns data, without an input callback: the bytes stay in
the buffer and the loop goes on. -/
theorem pty_read_loop_data_nocb (beh : ReadBehaviour) (k nr : Nat)
    (pty : shl_pty) (s : Source) (bs : List Byte) (h : beh s.calls = .data bs)
    (hne : bs ≠ []) (hcb : pty.fn_input = false) :
    pty_read_loop beh (k + 1) nr pty s =
      pty_read_loop beh k nr
        { pty with in_buf :=
            bs.take (SHL_PTY_BUFSIZE - 1) ++
              pty.in_buf.drop (bs.take (SHL_PTY_BUFSIZE - 1)).length }
        { calls := s.calls + 1,
          trace := s.trace ++ [.read_call (SHL_PTY_BUFSIZE - 1)] } := by
  have hg := take_bufsize_ne_nil bs hne
  generalize hgot : bs.take (SHL_PTY_BUFSIZE - 1) = got at hg ⊢
  obtain ⟨l, hl⟩ : ∃ l, got.length = l + 1 :=
    ⟨got.length - 1, (Nat.succ_pred_eq_of_pos (List.length_pos.mpr hg)).symm⟩
  simp [pty_read_loop, read, h, hgot, hl, hcb]

theorem chunks_append (a b : List InEvent) : chunks (a ++ b) = chunks a ++ chunks b := by
  induction a with
  | nil => rfl
  | cons e a ih => cases e <;> simp [chunks, ih]

/-! ## Claims on the input side -/

/-- Claim C6: in `pty_read`, a read that returns zero bytes makes the
function return -EPIPE (Closed), in the first pass and in the second pass;
in the second pass this holds whether or not a callback is installed, and
with a callback the chunk of the first pass has already been delivered. -/
theorem C6_zero_read_closed (beh : ReadBehaviour) (p : shl_pty) (s : Source) :
    (beh s.calls = .data [] → (pty_read beh p s).1 = -EPIPE) ∧
    (∀ bs : List Byte, bs ≠ [] → beh s.calls = .data bs →
      beh (s.calls + 1) = .data [] →
      (pty_read beh p s).1 = -EPIPE ∧
      (p.fn_input = true →
        chunks (pty_read beh p s).2.2.trace =
          chunks s.trace ++ [bs.take (SHL_PTY_BUFSIZE - 1)])) := by
  constructor
  · intro h
    unfold pty_read
    rw [pty_read_loop_eof beh 1 0 p s h]
  · intro bs hne h1 h2
    unfold pty_read
    cases hcb : p.fn_input with
    | true =>
      rw [pty_read_loop_data beh 1 0 p s bs h1 hne hcb, pty_read_loop_eof beh 0 _ _ _ h2]
      simp [chunks_append, chunks]
    | false =>
      rw [pty_read_loop_data_nocb beh 1 0 p s bs h1 hne hcb,
        pty_read_loop_eof beh 0 _ _ _ h2]
      simp

/-- Instance of C6: end of file on the first read, and end of file on the
second read after a chunk of two bytes. -/
theorem C6_zero_read_closed_witness :
    (pty_read (scripted_read [.data []]) (demo_pty []) idle).1 = -EPIPE ∧
    ((pty_read (scripted_read [.data [7, 8], .data []]) (demo_pty []) idle).1 = -EPIPE ∧
      ((demo_pty []).fn_input = true →
        chunks (pty_read (scripted_read [.data [7, 8], .data []]) (demo_pty [])
            idle).2.2.trace =
          chunks idle.trace ++ [[7, 8].take (SHL_PTY_BUFSIZE - 1)])) :=
  ⟨(C6_zero_read_closed (scripted_read [.data []]) (demo_pty []) idle).1 (by decide),
   (C6_zero_read_closed (scripted_read [.data [7, 8], .data []]) (demo_pty [])
      idle).2 [7, 8] (by decide) (by decide) (by decide)⟩

/-- Claim C7: in `pty_read`, a read that fails with would-block (EAGAIN) or
with signal interruption (EINTR) makes the function return 0, never a
negative code, in the first pass and in the second pass; on the first pass
the pty is left as it was and the input callback is not invoked: the only
event is the read call itself. -/
theorem C7_transient_read_is_no_data (beh : ReadBehaviour) (p : shl_pty)
    (s : Source) (e : Int) (he : e = EAGAIN ∨ e = EINTR) :
    (beh s.calls = .err e →
      pty_read beh p s =
        (0, p, { calls := s.calls + 1,
                 trace := s.trace ++ [.read_call (SHL_PTY_BUFSIZE - 1)] }) ∧
      chunks (pty_read beh p s).2.2.trace = chunks s.trace) ∧
    (∀ bs : List Byte, bs ≠ [] → beh s.calls = .data bs →
      beh (s.calls + 1) = .err e → (pty_read beh p s).1 = 0) := by
  have hret : (if e = EAGAIN then (0 : Int) else if e = EINTR then 0 else -e) = 0 := by
    rcases he with rfl | rfl <;> simp
  constructor
  · intro h
    have hr : pty_read beh p s =
        (0, p, { calls := s.calls + 1,
                 trace := s.trace ++ [.read_call (SHL_PTY_BUFSIZE - 1)] }) := by
      unfold pty_read
      rw [pty_read_loop_err beh 1 0 p s e h, hret]
    refine ⟨hr, ?_⟩
    rw [hr]
    simp [chunks_append, chunks]
  · intro bs hne h1 h2
    unfold pty_read
    cases hcb : p.fn_input with
    | true =>
      rw [pty_read_loop_data beh 1 0 p s bs h1 hne hcb,
        pty_read_loop_err beh 0 _ _ _ e h2, hret]
    | false =>
      rw [pty_read_loop_data_nocb beh 1 0 p s bs h1 hne hcb,
        pty_read_loop_err beh 0 _ _ _ e h2, hret]

/-- Instance of C7: a first read that would block, and a second read that is
interrupted after a chunk of two bytes. -/
theorem C7_transient_read_is_no_data_witness :
    (pty_read (scripted_read [.err EAGAIN]) (demo_pty []) idle =
        (0, demo_pty [], { calls := idle.calls + 1,
                           trace := idle.trace ++ [.read_call (SHL_PTY_BUFSIZE - 1)] }) ∧
      chunks (pty_read (scripted_read [.err EAGAIN]) (demo_pty []) idle).2.2.trace =
        chunks idle.trace) ∧
    (pty_read (scripted_read [.data [7, 8], .err EINTR]) (demo_pty []) idle).1 = 0 :=
  ⟨(C7_transient_read_is_no_data (scripted_read [.err EAGAIN]) (demo_pty []) idle
      EAGAIN (Or.inl rfl)).1 (by decide),
   (C7_transient_read_is_no_data (scripted_read [.data [7, 8], .err EINTR])
      (demo_pty []) idle EINTR (Or.inr rfl)).2 [7, 8] (by decide) (by decide)
      (by decide)⟩

/-- With a callback installed, the trace of one `pty_read` by the answers of
the descriptor: the first read is followed by nothing more when it brings no
data, else by the delivery of its chunk and the second read, which is
followed by the delivery of its chunk when it brings data. -/
theorem pty_read_trace (beh : ReadBehaviour) (p : shl_pty) (s : Source)
    (hcb : p.fn_input = true) :
    (pty_read beh p s).2.2.trace =
      s.trace ++
        (match beh s.calls with
         | .err _ => [.read_call (SHL_PTY_BUFSIZE - 1)]
         | .data [] => [.read_call (SHL_PTY_BUFSIZE - 1)]
         | .data (b :: bs) =>
           [.read_call (SHL_PTY_BUFSIZE - 1),
            .fn_input ((b :: bs).take (SHL_PTY_BUFSIZE - 1)),
            .read_call (SHL_PTY_BUFSIZE - 1)] ++
           (match beh (s.calls + 1) with
            | .err _ => []
            | .data [] => []
            | .data (c :: cs) => [.fn_input ((c :: cs).take (SHL_PTY_BUFSIZE - 1))])) := by
  have hcb2 : ∀ buf : List Byte, ({ p with in_buf := buf } : shl_pty).fn_input = true :=
    fun _ => hcb
  unfold pty_read
  cases h1 : beh s.calls with
  | err e => rw [pty_read_loop_err beh 1 0 p s e h1]
  | data bs1 =>
    cases bs1 with
    | nil => rw [pty_read_loop_eof beh 1 0 p s h1]
    | cons b bs =>
      rw [pty_read_loop_data beh 1 0 p s (b :: bs) h1 (by simp) hcb]
      cases h2 : beh (s.calls + 1) with
      | err e =>
        rw [pty_read_loop_err beh 0 _ _ _ e h2]
        simp
      | data bs2 =>
        cases bs2 with
        | nil =>
          rw [pty_read_loop_eof beh 0 _ _ _ h2]
          simp
        | cons c cs =>
          rw [pty_read_loop_data beh 0 _ _ _ (c :: cs) h2 (by simp) (hcb2 _)]
          simp [pty_read_loop]

/-- Claim C9: in `pty_read` with an input callback installed, one invocation
delivers at most two chunks, each non-empty and of at most
SHL_PTY_BUFSIZE - 1 = 16383 bytes; a first read that returns data is handed
to the callback as one chunk of exactly the bytes read before the second
read is issued; when both reads return data the events are read, chunk 1,
read, chunk 2 in this order and the result is the total number of bytes
delivered. -/
theorem C9_chunks_delivered_in_order (beh : ReadBehaviour) (p : shl_pty)
    (s : Source) (hcb : p.fn_input = true) :
    (∃ added : List InEvent,
      (pty_read beh p s).2.2.trace = s.trace ++ added ∧
      (chunks added).length ≤ 2 ∧
      ∀ c ∈ chunks added, c ≠ [] ∧ c.length ≤ SHL_PTY_BUFSIZE - 1) ∧
    SHL_PTY_BUFSIZE - 1 = 16383 ∧
    (∀ bs1 : List Byte, bs1 ≠ [] → beh s.calls = .data bs1 →
      ∃ rest : List InEvent,
        (pty_read beh p s).2.2.trace =
          s.trace ++ [.read_call (SHL_PTY_BUFSIZE - 1),
            .fn_input (bs1.take (SHL_PTY_BUFSIZE - 1)),
            .read_call (SHL_PTY_BUFSIZE - 1)] ++ rest ∧
        (chunks rest).length ≤ 1) ∧
    (∀ bs1 bs2 : List Byte, bs1 ≠ [] → bs2 ≠ [] → beh s.calls = .data bs1 →
      beh (s.calls + 1) = .data bs2 →
      (pty_read beh p s).2.2.trace =
        s.trace ++ [.read_call (SHL_PTY_BUFSIZE - 1),
          .fn_input (bs1.take (SHL_PTY_BUFSIZE - 1)),
          .read_call (SHL_PTY_BUFSIZE - 1),
          .fn_input (bs2.take (SHL_PTY_BUFSIZE - 1))] ∧
      (pty_read beh p s).1 =
        (((bs1.take (SHL_PTY_BUFSIZE - 1)).length +
          (bs2.take (SHL_PTY_BUFSIZE - 1)).length : Nat) : Int)) := by
  have htr := pty_read_trace beh p s hcb
  refine ⟨?_, bufsize_pred, ?_, ?_⟩
  · refine ⟨_, htr, ?_, ?_⟩
    · cases h1 : beh s.calls with
      | err e => simp [chunks]
      | data bs1 =>
        cases bs1 with
        | nil => simp [chunks]
        | cons b bs =>
          cases h2 : beh (s.calls + 1) with
          | err e => simp [chunks]
          | data bs2 => cases bs2 <;> simp [chunks]
    · intro c hc
      have hbound : ∀ l : List Byte, l ≠ [] →
          l.take (SHL_PTY_BUFSIZE - 1) ≠ [] ∧
            (l.take (SHL_PTY_BUFSIZE - 1)).length ≤ SHL_PTY_BUFSIZE - 1 := by
        intro l hl
        exact ⟨take_bufsize_ne_nil l hl, by rw [List.length_take]; omega⟩
      cases h1 : beh s.calls with
      | err e => rw [h1] at hc; simp [chunks] at hc
      | data bs1 =>
        cases bs1 with
        | nil => rw [h1] at hc; simp [chunks] at hc
        | cons b bs =>
          rw [h1] at hc
          cases h2 : beh (s.calls + 1) with
          | err e =>
            rw [h2] at hc
            simp only [chunks, List.append_nil, List.mem_singleton] at hc
            rw [hc]; exact hbound _ (by simp)
          | data bs2 =>
            rw [h2] at hc
            cases bs2 with
            | nil =>
              simp only [chunks, List.append_nil, List.mem_singleton] at hc
              rw [hc]; exact hbound _ (by simp)
            | cons c2 cs =>
              simp only [chunks_append, chunks, List.singleton_append, List.mem_cons,
                List.mem_singleton, List.not_mem_nil, or_false] at hc
              rcases hc with rfl | rfl
              · exact hbound _ (by simp)
              · exact hbound _ (by simp)
  · intro bs1 hne h1
    cases bs1 with
    | nil => exact absurd rfl hne
    | cons b bs =>
      rw [htr, h1]
      refine ⟨_, by rw [List.append_assoc], ?_⟩
      cases h2 : beh (s.calls + 1) with
      | err e => simp [chunks]
      | data bs2 => cases bs2 <;> simp [chunks]
  · intro bs1 bs2 hne1 hne2 h1 h2
    constructor
    · cases bs1 with
      | nil => exact absurd rfl hne1
      | cons b bs =>
        cases bs2 with
        | nil => exact absurd rfl hne2
        | cons c cs => rw [htr, h1, h2]; simp
    · unfold pty_read
      have hcb2 : ∀ buf : List Byte,
          ({ p with in_buf := buf } : shl_pty).fn_input = true := fun _ => hcb
      rw [pty_read_loop_data beh 1 0 p s bs1 h1 hne1 hcb,
        pty_read_loop_data beh 0 _ _ _ bs2 h2 hne2 (hcb2 _)]
      have l1 := length_take_bufsize bs1
      have l2 := length_take_bufsize bs2
      simp only [pty_read_loop, int_of_size_t]
      generalize (List.take (SHL_PTY_BUFSIZE - 1) bs1).length = a at l1 ⊢
      generalize (List.take (SHL_PTY_BUFSIZE - 1) bs2).length = b at l2 ⊢
      have e0 : (0 + a) % 2 ^ 64 = a := by omega
      have e1 : (a + b) % 2 ^ 64 % 2 ^ 32 = a + b := by omega
      rw [e0, e1, if_pos (by omega)]

/-- Instance of C9: two reads that return two bytes and one byte. -/
theorem C9_chunks_delivered_in_order_witness :
    (pty_read (scripted_read [.data [7, 8], .data [9]]) (demo_pty []) idle).2.2.trace =
      idle.trace ++ [.read_call (SHL_PTY_BUFSIZE - 1),
        .fn_input ([7, 8].take (SHL_PTY_BUFSIZE - 1)),
        .read_call (SHL_PTY_BUFSIZE - 1),
        .fn_input ([9].take (SHL_PTY_BUFSIZE - 1))] ∧
    (pty_read (scripted_read [.data [7, 8], .data [9]]) (demo_pty []) idle).1 =
      ((([7, 8].take (SHL_PTY_BUFSIZE - 1)).length +
        ([9].take (SHL_PTY_BUFSIZE - 1)).length : Nat) : Int) :=
  (C9_chunks_delivered_in_order (scripted_read [.data [7, 8], .data [9]])
    (demo_pty []) idle rfl).2.2.2 [7, 8] [9] (by decide) (by decide) (by decide)
    (by decide)

/-! ## Claims on enqueueing and on the result of a double read -/

/-- Claim C11: `shl_pty_write` on a NULL or closed pty returns -ENODEV and
leaves the pty, its outbound ring and the transport unchanged; on an open
pty its return value is that of the ring push, which is all-or-nothing:
either the push returns 0 and all of `u8` is appended at the tail of the
ring before the write attempt, or the push returns a negative code and the
write attempt runs on the ring as it was; the behaviour of the transport in
the immediate write attempt never changes the return value. -/
theorem C11_enqueue_result (beh : WriteBehaviour) (u8 : List Byte) (t : Transport) :
    shl_pty_write beh none u8 t = (-ENODEV, none, t) ∧
    (∀ q : shl_pty, shl_pty_is_open (some q) = false →
      shl_pty_write beh (some q) u8 t = (-ENODEV, some q, t)) ∧
    (∀ p : shl_pty, shl_pty_is_open (some p) = true →
      (shl_pty_write beh (some p) u8 t).1 = (shl_ring_push p.out_buf u8).1 ∧
      (((shl_pty_write beh (some p) u8 t).1 = 0 ∧
          shl_pty_write beh (some p) u8 t =
            (0,
             some (pty_write beh
               { p with out_buf := { p.out_buf with data := p.out_buf.data ++ u8 } } t).2.1,
             (pty_write beh
               { p with out_buf := { p.out_buf with data := p.out_buf.data ++ u8 } } t).2.2) ∧
          (shl_pty_write beh (some p) u8 t).2.2.observed ++
              pending (shl_pty_write beh (some p) u8 t).2.1 =
            t.observed ++ (p.out_buf.data ++ u8)) ∨
        ((shl_pty_write beh (some p) u8 t).1 < 0 ∧
          shl_pty_write beh (some p) u8 t =
            ((shl_ring_push p.out_buf u8).1, some (pty_write beh p t).2.1,
             (pty_write beh p t).2.2) ∧
          (shl_pty_write beh (some p) u8 t).2.2.observed ++
              pending (shl_pty_write beh (some p) u8 t).2.1 =
            t.observed ++ p.out_buf.data))) ∧
    (∀ (beh2 : WriteBehaviour) (p : Option shl_pty),
      (shl_pty_write beh p u8 t).1 = (shl_pty_write beh2 p u8 t).1) := by
  refine ⟨rfl, ?_, ?_, ?_⟩
  · intro q hq
    simp [shl_pty_write, hq]
  · intro p hopen
    have hw : shl_pty_write beh (some p) u8 t =
        ((shl_ring_push p.out_buf u8).1,
         some (pty_write beh { p with out_buf := (shl_ring_push p.out_buf u8).2 } t).2.1,
         (pty_write beh { p with out_buf := (shl_ring_push p.out_buf u8).2 } t).2.2) := by
      simp [shl_pty_write, hopen]
    refine ⟨by rw [hw], ?_⟩
    by_cases hc : p.out_buf.data.length + u8.length ≤ p.out_buf.capacity
    · left
      have hp : shl_ring_push p.out_buf u8 =
          (0, { p.out_buf with data := p.out_buf.data ++ u8 }) := by
        simp [shl_ring_push, hc]
      rw [hw, hp]
      refine ⟨rfl, rfl, ?_⟩
      simp only [pending, pty_write]
      rw [pty_write_loop_conserves]
    · right
      have hp : shl_ring_push p.out_buf u8 = (-ENOMEM, p.out_buf) := by
        simp [shl_ring_push, hc]
      rw [hw, hp]
      refine ⟨(by decide : (-ENOMEM : Int) < 0), rfl, ?_⟩
      simp only [pending, pty_write]
      rw [pty_write_loop_conserves]
  · intro beh2 p
    cases p with
    | none => rfl
    | some p =>
      cases hopen : shl_pty_is_open (some p) <;> simp [shl_pty_write, hopen]

/-- Instance of C11: a closed pty, a push of two bytes that fits the ring of
the open demo pty, and a push of 70 bytes that does not fit its capacity of
64. -/
theorem C11_enqueue_result_witness :
    shl_pty_write (scripted [.ok 1]) (some { demo_pty [1] with fd := -1 }) [2, 3] fresh =
      (-ENODEV, some { demo_pty [1] with fd := -1 }, fresh) ∧
    (shl_pty_write (scripted [.ok 1]) (some (demo_pty [1])) [2, 3] fresh).1 =
      (shl_ring_push (demo_pty [1]).out_buf [2, 3]).1 ∧
    (shl_pty_write (scripted [.ok 1]) (some (demo_pty [1])) [2, 3] fresh).1 = 0 ∧
    (shl_pty_write (scripted [.ok 1]) (some (demo_pty [1])) (List.replicate 70 9)
      fresh).1 = -ENOMEM :=
  ⟨(C11_enqueue_result (scripted [.ok 1]) [2, 3] fresh).2.1
      { demo_pty [1] with fd := -1 } (by decide),
   ((C11_enqueue_result (scripted [.ok 1]) [2, 3] fresh).2.2.1 (demo_pty [1])
      (by decide)).1,
   by decide,
   ((C11_enqueue_result (scripted [.ok 1]) (List.replicate 70 9) fresh).2.2.1
      (demo_pty [1]) (by decide)).1.trans (by decide)⟩

/-- Claim C18 fails on the code: with a callback installed, two reads that
return two bytes and one byte make `pty_read` return 3, the number of bytes
delivered, and without a callback they make it return 0; neither is the
-EAGAIN that the comment of `pty_read` announces. -/
theorem C18_double_read_returns_count :
    (pty_read (scripted_read [.data [7, 8], .data [9]]) (demo_pty []) idle).1 = 3 ∧
    (pty_read (scripted_read [.data [7, 8], .data [9]]) (demo_pty []) idle).1 ≠ -EAGAIN ∧
    (pty_read (scripted_read [.data [7, 8], .data [9]])
      { demo_pty [] with fn_input := false } idle).1 = 0 ∧
    (pty_read (scripted_read [.data [7, 8], .data [9]])
      { demo_pty [] with fn_input := false } idle).1 ≠ -EAGAIN := by
  decide

end ShlPty

/-! # Claims on the a12 helper interface -/

namespace A12Helper

theorem cinv_try_submit (tol : Nat) (w : Watermark) (h : cinv tol w) :
    cinv tol (try_submit w) := by
  obtain ⟨h1, h2, h3, h4⟩ := h
  unfold try_submit
  by_cases hs : submittable w = true
  · rw [if_pos hs]
    simp only [submittable, withheld, Bool.and_eq_true, decide_eq_true_eq,
      Bool.not_eq_true', decide_eq_false_iff_not, not_le] at hs
    refine ⟨h1, ?_, ?_, ?_⟩
    · simp only [distance] at hs ⊢
      push_cast
      rw [h1] at hs
      omega
    · simp only [h3]
      rw [List.range'_1_concat, Nat.add_comm 1]
    · simp only; omega
  · rw [if_neg hs]
    exact ⟨h1, h2, h3, h4⟩

theorem cinv_cstep (tol : Nat) (w : Watermark) (e : CEvent) (h : cinv tol w) :
    cinv tol (cstep w e) := by
  cases e with
  | frame =>
    apply cinv_try_submit
    obtain ⟨h1, h2, h3, h4⟩ := h
    exact ⟨h1, h2, h3, Nat.le_succ_of_le h4⟩
  | attempt => exact cinv_try_submit tol w h
  | ack n =>
    obtain ⟨h1, h2, h3, h4⟩ := h
    refine ⟨h1, ?_, h3, h4⟩
    simp only [cstep, on_ack, distance] at h2 ⊢
    have : (w.acknowledged : Int) ≤ ((max w.acknowledged n : Nat) : Int) := by
      exact_mod_cast Nat.le_max_left _ _
    omega

theorem cinv_crun (tol : Nat) (evs : List CEvent) :
    ∀ w : Watermark, cinv tol w → cinv tol (crun w evs) := by
  induction evs with
  | nil => intro w h; exact h
  | cons e es ih => intro w h; exact ih _ (cinv_cstep tol w e h)

theorem cinv_cstart (tol : Nat) : cinv tol (cstart tol) := by
  refine ⟨rfl, ?_, rfl, Nat.le_refl _⟩
  simp [distance, cstart]

/-- Claim C12: under the policy documented for `vframe_block` (a frame is
withheld whenever submitted - acknowledged >= vframe_block, an
acknowledgment of frame N sets acknowledged = max(acknowledged, N)), after
every sequence of ready frames, submit attempts and acknowledgments the
distance submitted - acknowledged does not exceed the tolerance, the frames
handed on are 1 .. submitted in sequence order, every other ready frame is
still waiting (none is dropped), a withheld attempt changes nothing, and
after an acknowledgment the oldest waiting frame is submittable exactly when
the distance is below the tolerance, the next attempt then handing on that
frame. -/
theorem C12_congestion_bound (tol : Nat) (evs : List CEvent) :
    distance (crun (cstart tol) evs) ≤ (tol : Int) ∧
    (crun (cstart tol) evs).sent = List.range' 1 (crun (cstart tol) evs).submitted ∧
    (crun (cstart tol) evs).sent ++ waiting (crun (cstart tol) evs) =
      List.range' 1 (crun (cstart tol) evs).ready ∧
    (withheld (crun (cstart tol) evs) = true →
      try_submit (crun (cstart tol) evs) = crun (cstart tol) evs) ∧
    (∀ n : Nat,
      (submittable (on_ack (crun (cstart tol) evs) n) = true ↔
        (crun (cstart tol) evs).submitted < (crun (cstart tol) evs).ready ∧
          ((crun (cstart tol) evs).submitted : Int) -
            ((max (crun (cstart tol) evs).acknowledged n : Nat) : Int) < (tol : Int)) ∧
      (submittable (on_ack (crun (cstart tol) evs) n) = true →
        (try_submit (on_ack (crun (cstart tol) evs) n)).sent =
          (crun (cstart tol) evs).sent ++ [(crun (cstart tol) evs).submitted + 1])) := by
  have hinv := cinv_crun tol evs (cstart tol) (cinv_cstart tol)
  generalize crun (cstart tol) evs = w at hinv ⊢
  obtain ⟨h1, h2, h3, h4⟩ := hinv
  refine ⟨h2, h3, ?_, ?_, ?_⟩
  · rw [h3, waiting]
    have := List.range'_append 1 w.submitted (w.ready - w.submitted) 1
    simp only [Nat.one_mul] at this
    rw [Nat.add_comm w.submitted 1, this]
    congr 1
    omega
  · intro hw
    simp [try_submit, submittable, hw]
  · intro n
    constructor
    · simp only [submittable, withheld, on_ack, distance, h1, Bool.and_eq_true,
        decide_eq_true_eq, Bool.not_eq_true', decide_eq_false_iff_not, not_le, ge_iff_le]
    · intro hs
      unfold try_submit
      rw [if_pos hs]
      rfl

/-- Instance of C12 (Scenario B): tolerance 3 and frames 1..5 made ready
with no acknowledgment: frames 1, 2, 3 are handed on, frames 4 and 5 are
withheld; the acknowledgment of frame 1 makes frame 4 submittable and the
next attempt hands it on. -/
theorem C12_congestion_bound_witness :
    (crun (cstart 3) [.frame, .frame, .frame, .frame, .frame]).sent = [1, 2, 3] ∧
    waiting (crun (cstart 3) [.frame, .frame, .frame, .frame, .frame]) = [4, 5] ∧
    submittable (crun (cstart 3) [.frame, .frame, .frame, .frame, .frame]) = false ∧
    submittable (on_ack (crun (cstart 3) [.frame, .frame, .frame, .frame, .frame]) 1) =
      true ∧
    (try_submit (on_ack (crun (cstart 3) [.frame, .frame, .frame, .frame, .frame]) 1)).sent =
      (crun (cstart 3) [.frame, .frame, .frame, .frame, .frame]).sent ++
        [(crun (cstart 3) [.frame, .frame, .frame, .frame, .frame]).submitted + 1] ∧
    (crun (cstart 3) [.frame, .frame, .frame, .frame, .frame]).sent ++
        [(crun (cstart 3) [.frame, .frame, .frame, .frame, .frame]).submitted + 1] =
      [1, 2, 3, 4] :=
  ⟨by decide, by decide, by decide, by decide,
   ((C12_congestion_bound 3 [.frame, .frame, .frame, .frame, .frame]).2.2.2.2 1).2
     (by decide),
   by decide⟩

/-- Claim C13: the three poll-state flags are the single bits 1, 2 and 4 and
pairwise disjoint; the bitwise OR of the flags of a set of surfaces is a
value in 0..7, two sets have the same bitmap only if they are equal, every
value in 0..7 is the bitmap of a set, and a surface is in the set if and
only if the bitwise AND of the bitmap with its flag is non-zero. -/
theorem C13_pollstate_bits :
    (A12HELPER_POLL_SHMIF = 2 ^ 0 ∧ A12HELPER_WRITE_OUT = 2 ^ 1 ∧
      A12HELPER_DATA_IN = 2 ^ 2) ∧
    (A12HELPER_POLL_SHMIF &&& A12HELPER_WRITE_OUT = 0 ∧
      A12HELPER_POLL_SHMIF &&& A12HELPER_DATA_IN = 0 ∧
      A12HELPER_WRITE_OUT &&& A12HELPER_DATA_IN = 0) ∧
    (∀ s w d : Bool, pollstate s w d ≤ 7) ∧
    (∀ s w d s2 w2 d2 : Bool,
      pollstate s w d = pollstate s2 w2 d2 ↔ (s = s2 ∧ w = w2 ∧ d = d2)) ∧
    (∀ v : Fin 8, ∃ s w d : Bool, pollstate s w d = v.val) ∧
    (∀ s w d : Bool,
      (pollstate s w d &&& A12HELPER_POLL_SHMIF ≠ 0 ↔ s = true) ∧
      (pollstate s w d &&& A12HELPER_WRITE_OUT ≠ 0 ↔ w = true) ∧
      (pollstate s w d &&& A12HELPER_DATA_IN ≠ 0 ↔ d = true)) := by
  refine ⟨by decide, by decide, by decide, by decide, by decide, by decide⟩

/-- Claim C14: the results documented for `a12helper_a12srv_shmifcl` are
mutually distinguishable: distinct outcomes have distinct return values, the
code -EINVAL for an invalid connection point differs from the code -ENOENT
for a failed shmif connection, both are negative, and every poll-state
bitmap lies in 0..7, so that neither error code is a bitmap. -/
theorem C14_results_distinguishable :
    (-EINVAL : Int) ≠ -ENOENT ∧ (-EINVAL : Int) < 0 ∧ (-ENOENT : Int) < 0 ∧
    a12helper_a12srv_shmifcl_result .invalid_connection_point = -EINVAL ∧
    a12helper_a12srv_shmifcl_result .no_shmif_connection = -ENOENT ∧
    (∀ s w d : Bool,
      0 ≤ a12helper_a12srv_shmifcl_result (.polling s w d) ∧
      a12helper_a12srv_shmifcl_result (.polling s w d) ≤ 7 ∧
      a12helper_a12srv_shmifcl_result (.polling s w d) ≠ -EINVAL ∧
      a12helper_a12srv_shmifcl_result (.polling s w d) ≠ -ENOENT) ∧
    (∀ s w d s2 w2 d2 : Bool,
      a12helper_a12srv_shmifcl_result (.polling s w d) =
        a12helper_a12srv_shmifcl_result (.polling s2 w2 d2) ↔
      (s = s2 ∧ w = w2 ∧ d = d2)) := by
  refine ⟨by decide, by decide, by decide, rfl, rfl, by decide, by decide⟩

end A12Helper

/-! # Claims on the encode frameserver -/

namespace Encode

theorem char_toNat_inj (a b : Char) (h : a.toNat = b.toNat) : a = b :=
  Char.ext (UInt32.ext h)

/-- Comparing over the whole length of `a`, a string without zero
characters: `strncmp` yields 0 exactly when `b` begins with `a`. -/
theorem strncmp_eq_zero_iff (a : List Char) :
    ∀ b : List Char, (∀ c ∈ a, c.toNat ≠ 0) →
      (strncmp a b a.length = 0 ↔ b.take a.length = a) := by
  induction a with
  | nil => intro b _; simp [strncmp]
  | cons x xs ih =>
    intro b hz
    have hx : x.toNat ≠ 0 := hz x (List.mem_cons_self _ _)
    cases b with
    | nil =>
      simp only [List.length_cons, strncmp, List.take_nil]
      constructor
      · intro h; exact absurd (by exact_mod_cast h) hx
      · intro h; exact absurd h (by simp)
    | cons y ys =>
      simp only [List.length_cons, strncmp, List.take_succ_cons, List.cons.injEq]
      by_cases hxy : x = y
      · subst hxy
        simp only [if_true, true_and]
        exact ih ys (fun c hc => hz c (List.mem_cons_of_mem _ hc))
      · simp only [if_neg hxy]
        constructor
        · intro h
          exact absurd (char_toNat_inj x y (by omega)) hxy
        · intro h
          exact absurd h.1.symm hxy

/-- The test of encode.c line 591: `strncmp("rtmp://", streamdst, 7)` is 0
exactly when `streamdst` begins with the seven characters "rtmp://". -/
theorem strncmp_rtmp (dst : List Char) :
    strncmp "rtmp://".toList dst 7 = 0 ↔ dst.take 7 = "rtmp://".toList := by
  have h := strncmp_eq_zero_iff "rtmp://".toList dst (by decide)
  have hl : "rtmp://".toList.length = 7 := by decide
  rw [hl] at h
  exact h

/-- Claim C15 fails on the code: the level handed to the codec setup never
exceeds 10, but it is 0, below the documented range 1..10, for the argument
vpreset=0 (likewise apreset=0) and for vpreset=4294967296, which the
conversion to `unsigned` turns into 0 before the comparison with 10. -/
theorem C15_preset_level_below_range :
    (∀ (bitrate : Option String) (val : String), decode_rate bitrate (some val) ≤ 10) ∧
    decode_rate none (some "0") = 0 ∧
    decode_rate none (some "4294967296") = 0 ∧
    setup_ffmpeg_encode_args
        { vbitrate := none, abitrate := none, vpreset := some "0", apreset := some "0",
          container := none, streamdst := none } 640 480 =
      .choose_container
        { vbr := 0, abr := 0, cont := none, streamdst := none, stream_outp := false } ∧
    ¬ (1 ≤ decode_rate none (some "0")) := by
  refine ⟨?_, by decide, by decide, by decide, by decide⟩
  intro bitrate val
  simp only [decode_rate]
  split_ifs with h
  · exact Nat.le_refl 10
  · omega

/-- Claim C16: with the container argument "stream", `setup_ffmpeg_encode`
returns true only if a streamdst argument is present and begins with the
seven characters "rtmp://"; when streamdst is absent or begins otherwise it
returns false without reaching the choice of the container (it stops at the
size check or at the streamdst check, at the latter when both sizes are
even); with a valid streamdst and even sizes the container is chosen for
streaming to that destination. -/
theorem C16_stream_needs_rtmp (rest : codec_hints → Bool) (args : encode_args)
    (desw desh : Int) (hcont : args.container = some "stream") :
    (setup_ffmpeg_encode rest args desw desh = true →
      ∃ dst : String, args.streamdst = some dst ∧
        dst.toList.take 7 = "rtmp://".toList) ∧
    ((args.streamdst = none ∨
        ∃ dst : String, args.streamdst = some dst ∧
          dst.toList.take 7 ≠ "rtmp://".toList) →
      setup_ffmpeg_encode rest args desw desh = false ∧
      (setup_ffmpeg_encode_args args desw desh = .odd_size ∨
        setup_ffmpeg_encode_args args desw desh = .no_valid_streamdst) ∧
      (desw.tmod 2 = 0 → desh.tmod 2 = 0 →
        setup_ffmpeg_encode_args args desw desh = .no_valid_streamdst)) ∧
    (∀ dst : String, args.streamdst = some dst →
      dst.toList.take 7 = "rtmp://".toList → desw.tmod 2 = 0 → desh.tmod 2 = 0 →
      setup_ffmpeg_encode_args args desw desh =
        .choose_container
          { vbr := decode_rate args.vbitrate args.vpreset,
            abr := decode_rate args.abitrate args.apreset,
            cont := some "stream", streamdst := some dst, stream_outp := true }) := by
  have hs : streq "stream" "stream" = true := by decide
  by_cases hodd : desw.tmod 2 ≠ 0 ∨ desh.tmod 2 ≠ 0
  · have hst : setup_ffmpeg_encode_args args desw desh = .odd_size := by
      simp only [setup_ffmpeg_encode_args, if_pos hodd]
    have hres : setup_ffmpeg_encode rest args desw desh = false := by
      simp only [setup_ffmpeg_encode, hst]
    refine ⟨?_, ?_, ?_⟩
    · intro h; rw [hres] at h; exact absurd h (by decide)
    · intro _
      refine ⟨hres, Or.inl hst, ?_⟩
      intro hw hh
      rcases hodd with h | h
      · exact absurd hw h
      · exact absurd hh h
    · intro dst _ _ hw hh
      rcases hodd with h | h
      · exact absurd hw h
      · exact absurd hh h
  · cases hd : args.streamdst with
    | none =>
      have hst : setup_ffmpeg_encode_args args desw desh = .no_valid_streamdst := by
        simp only [setup_ffmpeg_encode_args, if_neg hodd, hcont, hs, if_true, hd]
      have hres : setup_ffmpeg_encode rest args desw desh = false := by
        simp only [setup_ffmpeg_encode, hst]
      refine ⟨?_, ?_, ?_⟩
      · intro h; rw [hres] at h; exact absurd h (by decide)
      · intro _; exact ⟨hres, Or.inr hst, fun _ _ => hst⟩
      · intro dst h; exact absurd h (by simp)
    | some dst0 =>
      by_cases hp : dst0.toList.take 7 = "rtmp://".toList
      · have hz : strncmp "rtmp://".toList dst0.toList 7 = 0 := (strncmp_rtmp _).mpr hp
        have hst : setup_ffmpeg_encode_args args desw desh =
            .choose_container
              { vbr := decode_rate args.vbitrate args.vpreset,
                abr := decode_rate args.abitrate args.apreset,
                cont := some "stream", streamdst := some dst0, stream_outp := true } := by
          simp only [setup_ffmpeg_encode_args, if_neg hodd, hcont, hs, if_true, hd, hz,
            ne_eq, not_true_eq_false, if_false]
        refine ⟨?_, ?_, ?_⟩
        · intro _; exact ⟨dst0, rfl, hp⟩
        · intro h
          rcases h with h | ⟨dst, h1, h2⟩
          · exact absurd h (by simp)
          · have : dst0 = dst := Option.some.inj h1
            subst this
            exact absurd hp h2
        · intro dst h1 _ _ _
          have : dst0 = dst := Option.some.inj h1
          subst this
          exact hst
      · have hz : strncmp "rtmp://".toList dst0.toList 7 ≠ 0 :=
          fun h => hp ((strncmp_rtmp _).mp h)
        have hst : setup_ffmpeg_encode_args args desw desh = .no_valid_streamdst := by
          simp only [setup_ffmpeg_encode_args, if_neg hodd, hcont, hs, if_true, hd, hz,
            ne_eq, not_false_eq_true]
        have hres : setup_ffmpeg_encode rest args desw desh = false := by
          simp only [setup_ffmpeg_encode, hst]
        refine ⟨?_, ?_, ?_⟩
        · intro h; rw [hres] at h; exact absurd h (by decide)
        · intro _; exact ⟨hres, Or.inr hst, fun _ _ => hst⟩
        · intro dst h1 h2
          have : dst0 = dst := Option.some.inj h1
          subst this
          exact absurd h2 hp

/-- Instance of C16: streaming to "http://host" is refused at the streamdst
check, streaming to "rtmp://host" reaches the choice of the container. -/
theorem C16_stream_needs_rtmp_witness :
    (setup_ffmpeg_encode (fun _ => true)
        { vbitrate := none, abitrate := none, vpreset := none, apreset := none,
          container := some "stream", streamdst := some "http://host" } 640 480 = false ∧
      (setup_ffmpeg_encode_args
          { vbitrate := none, abitrate := none, vpreset := none, apreset := none,
            container := some "stream", streamdst := some "http://host" } 640 480 =
          .odd_size ∨
        setup_ffmpeg_encode_args
          { vbitrate := none, abitrate := none, vpreset := none, apreset := none,
            container := some "stream", streamdst := some "http://host" } 640 480 =
          .no_valid_streamdst) ∧
      ((640 : Int).tmod 2 = 0 → (480 : Int).tmod 2 = 0 →
        setup_ffmpeg_encode_args
          { vbitrate := none, abitrate := none, vpreset := none, apreset := none,
            container := some "stream", streamdst := some "http://host" } 640 480 =
          .no_valid_streamdst)) ∧
    setup_ffmpeg_encode_args
        { vbitrate := none, abitrate := none, vpreset := none, apreset := none,
          container := some "stream", streamdst := some "rtmp://host" } 640 480 =
      .choose_container
        { vbr := decode_rate none none, abr := decode_rate none none,
          cont := some "stream", streamdst := some "rtmp://host", stream_outp := true } :=
  ⟨(C16_stream_needs_rtmp (fun _ => true)
      { vbitrate := none, abitrate := none, vpreset := none, apreset := none,
        container := some "stream", streamdst := some "http://host" } 640 480 rfl).2.1
      (Or.inr ⟨"http://host", rfl, by decide⟩),
   (C16_stream_needs_rtmp (fun _ => true)
      { vbitrate := none, abitrate := none, vpreset := none, apreset := none,
        container := some "stream", streamdst := some "rtmp://host" } 640 480 rfl).2.2
      "rtmp://host" rfl (by decide) (by decide) (by decide)⟩

/-- Claim C17 fails on the code: in every build "a12" is a protocol name of
the help text, yet for protocol=a12 the selection runs `a12_serv_run`, falls
through to the final else branch, logs "unsupported encoding protocol" and
returns EXIT_FAILURE; protocol=png and protocol=video are not rejected. -/
theorem C17_a12_rejected_as_unsupported (cfg : build_config) (v4l2_result : Int) :
    "a12" ∈ documented_protocols cfg ∧
    protocol_select cfg v4l2_result "a12" =
      ([.a12_serv_run, .log_unsupported], .returned EXIT_FAILURE) ∧
    rejected (protocol_select cfg v4l2_result "a12") = true ∧
    protocol_select cfg v4l2_result "png" = ([.png_stream_run], .returned EXIT_SUCCESS) ∧
    protocol_select cfg v4l2_result "video" = ([], .video_recording) ∧
    rejected (protocol_select cfg v4l2_result "png") = false ∧
    rejected (protocol_select cfg v4l2_result "video") = false := by
  obtain ⟨vnc, cam, ocr⟩ := cfg
  have e1 : streq "a12" "vnc" = false := by decide
  have e2 : streq "a12" "cam" = false := by decide
  have e3 : streq "a12" "a12" = true := by decide
  have e4 : streq "a12" "ocr" = false := by decide
  have e5 : streq "a12" "png" = false := by decide
  have e6 : streq "a12" "video" = false := by decide
  have f1 : streq "png" "vnc" = false := by decide
  have f2 : streq "png" "cam" = false := by decide
  have f3 : streq "png" "a12" = false := by decide
  have f4 : streq "png" "ocr" = false := by decide
  have f5 : streq "png" "png" = true := by decide
  have g1 : streq "video" "vnc" = false := by decide
  have g2 : streq "video" "cam" = false := by decide
  have g3 : streq "video" "a12" = false := by decide
  have g4 : streq "video" "ocr" = false := by decide
  have g5 : streq "video" "png" = false := by decide
  have g6 : streq "video" "video" = true := by decide
  have ha : protocol_select ⟨vnc, cam, ocr⟩ v4l2_result "a12" =
      ([.a12_serv_run, .log_unsupported], .returned EXIT_FAILURE) := by
    simp [protocol_select, e1, e2, e3, e4, e5, e6]
  have hp : protocol_select ⟨vnc, cam, ocr⟩ v4l2_result "png" =
      ([.png_stream_run], .returned EXIT_SUCCESS) := by
    simp [protocol_select, f1, f2, f3, f4, f5]
  have hv : protocol_select ⟨vnc, cam, ocr⟩ v4l2_result "video" =
      ([], .video_recording) := by
    simp [protocol_select, g1, g2, g3, g4, g5, g6]
  refine ⟨?_, ha, ?_, hp, hv, ?_, ?_⟩
  · simp [documented_protocols]
  · rw [ha]; decide
  · rw [hp]; decide
  · rw [hv]; decide

/-- Claim C19 fails on the code: with an audio context, a silence request of
one sample and 16 free bytes, `flush_audbuf` inserts four zero bytes ahead
of the four incoming bytes but leaves `silence_samples` at 1, not 0, and the
next flush, with no incoming audio, inserts four more zero bytes. -/
theorem C19_silence_request_not_cleared :
    flush_audbuf (demo_recctx 1) { abufused := 4, audp := [1, 2, 3, 4] } =
      ({ acontext := true, silence_samples := 1,
         encabuf := [0, 0, 0, 0, 1, 2, 3, 4, 170, 170, 170, 170, 170, 170, 170, 170],
         encabuf_ofs := 8, encabuf_sz := 16 },
       { abufused := 0, audp := [1, 2, 3, 4] }) ∧
    (flush_audbuf (demo_recctx 1)
      { abufused := 4, audp := [1, 2, 3, 4] }).1.silence_samples ≠ 0 ∧
    flush_audbuf
        (flush_audbuf (demo_recctx 1) { abufused := 4, audp := [1, 2, 3, 4] }).1
        { abufused := 0, audp := [] } =
      ({ acontext := true, silence_samples := 1,
         encabuf := [0, 0, 0, 0, 1, 2, 3, 4, 0, 0, 0, 0, 170, 170, 170, 170],
         encabuf_ofs := 12, encabuf_sz := 16 },
       { abufused := 0, audp := [] }) := by
  decide

/-- Claim C20 fails on the code: with an audio context, a request to drop
one sample and two samples (eight bytes) in the shared buffer, the
comparison of `ntc >> 2` with the negative `silence_samples` is made in
`size_t`, so `flush_audbuf` takes the branch `ntd == ntc`: it appends
nothing to the encode buffer, discards all eight bytes and sets
`silence_samples` to 3. -/
theorem C20_negative_silence_drops_all :
    flush_audbuf (demo_recctx (-1))
        { abufused := 8, audp := [1, 2, 3, 4, 5, 6, 7, 8] } =
      ({ acontext := true, silence_samples := 3,
         encabuf := [170, 170, 170, 170, 170, 170, 170, 170,
                     170, 170, 170, 170, 170, 170, 170, 170],
         encabuf_ofs := 0, encabuf_sz := 16 },
       { abufused := 0, audp := [1, 2, 3, 4, 5, 6, 7, 8] }) ∧
    to_size_t (-1) = 2 ^ 64 - 1 ∧
    (flush_audbuf (demo_recctx (-1))
      { abufused := 8, audp := [1, 2, 3, 4, 5, 6, 7, 8] }).1.encabuf_ofs ≠ 4 ∧
    (flush_audbuf (demo_recctx (-1))
      { abufused := 8, audp := [1, 2, 3, 4, 5, 6, 7, 8] }).1.encabuf.take 4 ≠
      [5, 6, 7, 8] := by
  decide

/-! ## The silence branches of `flush_audbuf` in general -/

theorem copy_audio_silence (r : recctx) (shm : shm_audio) (skip ntc : Nat) :
    (copy_audio r shm skip ntc).1.silence_samples = r.silence_samples := by
  simp [copy_audio]

/-- Whenever the request fits the room left, a positive silence request is
left as it was. -/
theorem flush_audbuf_silence_kept (r : recctx) (shm : shm_audio) (n : Nat)
    (hctx : r.acontext = true) (hs : r.silence_samples = (n : Int)) (hn : 0 < n)
    (hsmall : n < 2 ^ 29) (hofs : 0 ≤ r.encabuf_ofs)
    (hroom : r.encabuf_ofs + 4 * (n : Int) ≤ (r.encabuf_sz : Int))
    (hsz : r.encabuf_sz < 2 ^ 63) :
    (flush_audbuf r shm).1.silence_samples = (n : Int) := by
  have hpos : r.silence_samples > 0 := by rw [hs]; exact_mod_cast hn
  have h4 : shl2 r.silence_samples = 4 * (n : Int) := by
    simp only [shl2, to_int, hs]
    norm_num at hsmall ⊢
    split_ifs <;> omega
  have hw : to_size_t (shl2 r.silence_samples) = 4 * n := by
    rw [h4]; simp only [to_size_t]; norm_num at hsmall ⊢; omega
  have hr : to_size_t ((r.encabuf_sz : Int) - r.encabuf_ofs) ≥ 4 * n := by
    simp only [to_size_t]; norm_num at hsz ⊢; omega
  simp only [flush_audbuf, hctx, Bool.not_true, Bool.false_eq_true, if_false, if_pos hpos,
    copy_audio_silence, hw]
  rw [if_neg (by omega)]
  simp only [to_int]
  norm_num at hsmall ⊢
  split_ifs <;> omega

/-- Whatever the number of samples to drop, a negative silence request makes
the flush discard the whole shared buffer. -/
theorem flush_audbuf_negative_drops_all (r : recctx) (shm : shm_audio) (n : Nat)
    (hctx : r.acontext = true) (hs : r.silence_samples = -(n : Int)) (hn : 0 < n)
    (hsmall : n < 2 ^ 29) (hused : shm.abufused < 2 ^ 32) :
    flush_audbuf r shm =
      ({ r with silence_samples := 3 * (n : Int) }, { shm with abufused := 0 }) := by
  have hneg : r.silence_samples < 0 := by rw [hs]; omega
  have hnpos : ¬ r.silence_samples > 0 := by omega
  have h4 : shl2 r.silence_samples = -(4 * (n : Int)) := by
    simp only [shl2, to_int, hs]
    norm_num at hsmall ⊢
    split_ifs <;> omega
  have hc : ¬ shm.abufused / 4 > to_size_t r.silence_samples := by
    simp only [to_size_t, hs]; norm_num at hsmall hused ⊢; omega
  have h3 : to_int (r.silence_samples - shl2 r.silence_samples) = 3 * (n : Int) := by
    rw [h4, hs]; simp only [to_int]; norm_num at hsmall ⊢; split_ifs <;> omega
  simp only [flush_audbuf, hctx, Bool.not_true, Bool.false_eq_true, if_false, if_neg hnpos,
    if_pos hneg, if_neg hc, if_true, h3]

end Encode

/-! # Claims on the tui context setup -/

namespace TuiSetup

/-- A member that lies within the first `n` bytes is read from those alone. -/
theorem slot_take (l : tui_layout) (x : List Nat) (n i : Nat)
    (h : i * l.ptr_sz + l.ptr_sz ≤ n) : slot l (x.take n) i = slot l x i := by
  unfold slot
  rw [List.drop_take, List.take_take]
  congr 1
  omega

/-- After the copy the first `n` bytes are the caller's and the other bytes
are the destination's. -/
theorem memcpy_take_drop (dst src : List Nat) (n : Nat) (h : n ≤ src.length) :
    (memcpy dst src n).take n = src.take n ∧ (memcpy dst src n).drop n = dst.drop n := by
  have hl : (src.take n).length = n := by rw [List.length_take]; omega
  unfold memcpy
  constructor
  · rw [List.take_append_of_le_length (by omega)]
    rw [List.take_take, Nat.min_self]
  · rw [List.drop_append_of_le_length (by omega)]
    rw [List.drop_of_length_le (by omega)]
    rfl

theorem apply_arg_handlers (env : setup_env) (src : tui_context) :
    (apply_arg env src).handlers = src.handlers := by
  unfold apply_arg
  cases env.bgalpha <;> rfl

/-- A bound context has the handlers it had before the binding. -/
theorem late_bind_bound (env : setup_env) (con : tui_conn) (res r : tui_context)
    (h : late_bind env con res = .bound r) : r.handlers = res.handlers := by
  simp only [late_bind] at h
  split_ifs at h
  have := bind_result.bound.inj h
  rw [← this]

/-- The handler table of a context that is returned allocated, and the
checks that were passed. -/
theorem arcan_tui_setup_live (l : tui_layout) (env : setup_env) (con : Option tui_conn)
    (parent : Option tui_context) (table : List Nat) (cbs_sz : Nat) (ctx : tui_context)
    (h : arcan_tui_setup l env con parent (some table) cbs_sz = .live ctx) :
    cbs_sz ≤ sizeof_tui_cbcfg l ∧ cbs_sz % l.ptr_sz = 0 ∧
      ctx.handlers = memcpy (List.replicate (sizeof_tui_cbcfg l) 0) table cbs_sz := by
  simp only [arcan_tui_setup] at h
  split_ifs at h with h1 h2 h3 h4
  have hsz : cbs_sz ≤ sizeof_tui_cbcfg l ∧ cbs_sz % l.ptr_sz = 0 := by
    constructor
    · by_contra hc; exact h3 (Or.inl (by omega))
    · by_contra hc; exact h3 (Or.inr hc)
  refine ⟨hsz.1, hsz.2, ?_⟩
  have hpar : ∀ r : tui_context,
      (match parent with
        | some p => ({ r with alpha := p.alpha } : tui_context)
        | none => r).handlers = r.handlers := by
    intro r; cases parent <;> rfl
  cases con with
  | none =>
    have := setup_result.live.inj h
    rw [← this, hpar, apply_arg_handlers]
  | some c =>
    simp only at h
    split at h
    · rename_i r hb
      have := setup_result.live.inj h
      rw [← this, late_bind_bound env c _ r hb, hpar, apply_arg_handlers]
    · exact absurd h (by simp)
    · exact absurd h (by simp)

/-- What holds of `arcan_tui_setup` for every connection, parent and
environment: NULL is returned when `cbs` is NULL and for every `cbs_sz` that
is larger than `sizeof(struct tui_cbcfg)` or not a multiple of the pointer
size; in every context that is returned allocated exactly the first
`cbs_sz` bytes of the handler table are the caller's and the rest is zero,
member by member; an accepted size yields an allocated context when the
external calls succeed and there is no connection, or the initial structure
is set and either its size matches or the connection is not managed; a
managed connection with a size mismatch yields the released context. -/
theorem arcan_tui_setup_handler_table (l : tui_layout) (env : setup_env)
    (con : Option tui_conn) (parent : Option tui_context) (hptr : 0 < l.ptr_sz) :
    (∀ cbs_sz : Nat, arcan_tui_setup l env con parent none cbs_sz = .null) ∧
    (∀ (table : List Nat) (cbs_sz : Nat),
      cbs_sz > sizeof_tui_cbcfg l ∨ cbs_sz % l.ptr_sz ≠ 0 →
      arcan_tui_setup l env con parent (some table) cbs_sz = .null) ∧
    (∀ (table : List Nat) (cbs_sz : Nat) (ctx : tui_context),
      arcan_tui_setup l env con parent (some table) cbs_sz = .live ctx →
      cbs_sz ≤ table.length →
      ctx.handlers.length = sizeof_tui_cbcfg l ∧
      ctx.handlers.take cbs_sz = table.take cbs_sz ∧
      ctx.handlers.drop cbs_sz = List.replicate (sizeof_tui_cbcfg l - cbs_sz) 0 ∧
      ∀ i : Nat, i < l.slots →
        (i < cbs_sz / l.ptr_sz → slot l ctx.handlers i = slot l table i) ∧
        (cbs_sz / l.ptr_sz ≤ i → slot l ctx.handlers i = List.replicate l.ptr_sz 0)) ∧
    (∀ (table : List Nat) (cbs_sz : Nat),
      cbs_sz ≤ sizeof_tui_cbcfg l → cbs_sz % l.ptr_sz = 0 →
      env.malloc_ok = true → 0 ≤ env.tsm_screen_new → env.tsm_utf8_mach_new = 0 →
      (con = none ∨ (env.initial_set = true ∧
        (env.initial_size_ok = true ∨ ∀ c : tui_conn, con = some c → c.user ≠ MANAGED_MARK))) →
      ∃ ctx : tui_context, arcan_tui_setup l env con parent (some table) cbs_sz = .live ctx) ∧
    (∀ (table : List Nat) (cbs_sz : Nat) (c : tui_conn),
      cbs_sz ≤ sizeof_tui_cbcfg l → cbs_sz % l.ptr_sz = 0 →
      env.malloc_ok = true → 0 ≤ env.tsm_screen_new → env.tsm_utf8_mach_new = 0 →
      con = some c → c.user = MANAGED_MARK → env.initial_size_ok = false →
      arcan_tui_setup l env con parent (some table) cbs_sz = .freed) := by
  have hreach : ∀ (table : List Nat) (cbs_sz : Nat),
      cbs_sz ≤ sizeof_tui_cbcfg l → cbs_sz % l.ptr_sz = 0 →
      env.malloc_ok = true → 0 ≤ env.tsm_screen_new → env.tsm_utf8_mach_new = 0 →
      arcan_tui_setup l env con parent (some table) cbs_sz =
        (match con with
         | none =>
           .live (match parent with
             | some p =>
               { apply_arg env
                   { alpha := 255,
                     handlers := memcpy (List.replicate (sizeof_tui_cbcfg l) 0) table cbs_sz,
                     acon := none } with alpha := p.alpha }
             | none =>
               apply_arg env
                 { alpha := 255,
                   handlers := memcpy (List.replicate (sizeof_tui_cbcfg l) 0) table cbs_sz,
                   acon := none })
         | some c =>
           match late_bind env c
             (match parent with
               | some p =>
                 { apply_arg env
                     { alpha := 255,
                       handlers := memcpy (List.replicate (sizeof_tui_cbcfg l) 0) table cbs_sz,
                       acon := none } with alpha := p.alpha }
               | none =>
                 apply_arg env
                   { alpha := 255,
                     handlers := memcpy (List.replicate (sizeof_tui_cbcfg l) 0) table cbs_sz,
                     acon := none }) with
           | .bound r => .live r
           | .freed => .freed
           | .null_deref => .null_deref) := by
    intro table cbs_sz h1 h2 hm hs hu
    have hgood : ¬ (cbs_sz > sizeof_tui_cbcfg l ∨ cbs_sz % l.ptr_sz ≠ 0) := by
      intro h
      rcases h with h | h
      · omega
      · exact h h2
    have hs2 : ¬ env.tsm_screen_new < 0 := by omega
    have hu2 : ¬ (0 ≠ env.tsm_utf8_mach_new) := by omega
    simp only [arcan_tui_setup, hm, Bool.not_true, Bool.false_eq_true, if_false, if_neg hs2,
      if_neg hgood, if_neg hu2]
  refine ⟨fun _ => rfl, ?_, ?_, ?_, ?_⟩
  · intro table cbs_sz hbad
    simp only [arcan_tui_setup]
    split_ifs <;> rfl
  · intro table cbs_sz ctx h hlen
    obtain ⟨hle, hmod, hh⟩ := arcan_tui_setup_live l env con parent table cbs_sz ctx h
    obtain ⟨htake, hdrop⟩ :=
      memcpy_take_drop (List.replicate (sizeof_tui_cbcfg l) 0) table cbs_sz hlen
    rw [← hh] at htake hdrop
    have hdrop2 : ctx.handlers.drop cbs_sz =
        List.replicate (sizeof_tui_cbcfg l - cbs_sz) 0 := by
      rw [hdrop, List.drop_replicate]
    have hk : cbs_sz / l.ptr_sz * l.ptr_sz = cbs_sz :=
      Nat.div_mul_cancel (Nat.dvd_of_mod_eq_zero hmod)
    refine ⟨?_, htake, hdrop2, ?_⟩
    · rw [hh, memcpy, List.length_append, List.length_take, List.length_drop,
        List.length_replicate]
      omega
    · intro i hi
      constructor
      · intro hik
        have hb : i * l.ptr_sz + l.ptr_sz ≤ cbs_sz := by
          have : (i + 1) * l.ptr_sz ≤ cbs_sz / l.ptr_sz * l.ptr_sz :=
            Nat.mul_le_mul_right _ hik
          rw [hk, Nat.add_mul, Nat.one_mul] at this
          exact this
        rw [← slot_take l ctx.handlers cbs_sz i hb, htake, slot_take l table cbs_sz i hb]
      · intro hki
        have hb : cbs_sz ≤ i * l.ptr_sz := by
          have : cbs_sz / l.ptr_sz * l.ptr_sz ≤ i * l.ptr_sz := Nat.mul_le_mul_right _ hki
          rw [hk] at this
          exact this
        have ht : i * l.ptr_sz + l.ptr_sz ≤ sizeof_tui_cbcfg l := by
          have : (i + 1) * l.ptr_sz ≤ l.slots * l.ptr_sz := Nat.mul_le_mul_right _ hi
          rw [Nat.add_mul, Nat.one_mul] at this
          exact this
        have hsplit : ctx.handlers.drop (i * l.ptr_sz) =
            (ctx.handlers.drop cbs_sz).drop (i * l.ptr_sz - cbs_sz) := by
          rw [List.drop_drop]
          congr 1
          omega
        unfold slot
        rw [hsplit, hdrop2, List.drop_replicate, List.take_replicate]
        congr 1
        omega
  · intro table cbs_sz h1 h2 hm hs hu hcon
    rw [hreach table cbs_sz h1 h2 hm hs hu]
    rcases hcon with hnone | ⟨hset, hsize⟩
    · subst hnone
      exact ⟨_, rfl⟩
    · cases con with
      | none => exact ⟨_, rfl⟩
      | some c =>
        have hb : ∀ res : tui_context,
            late_bind env c res = .bound { res with acon := some c } := by
          intro res
          rcases hsize with hok | hun
          · simp [late_bind, hok, hset]
          · have := hun c rfl
            simp [late_bind, this, hset]
        simp only [hb]
        exact ⟨_, rfl⟩
  · intro table cbs_sz c h1 h2 hm hs hu hcon hman hmis
    rw [hreach table cbs_sz h1 h2 hm hs hu]
    subst hcon
    have hb : ∀ res : tui_context, late_bind env c res = .freed := by
      intro res
      simp [late_bind, hman, hmis]
    simp only [hb]

end TuiSetup
